import Mathlib

/-!
# Verification of the rsi-strat backtesting engine

Shallow embedding of the Go sources `indicator.go`, `backtest.go` and
`bounce.go`.  Floating-point values are modelled as exact rationals (`ℚ`),
Go `int64` values as `ℤ`, and Go slices as Lean lists.  A `nil` slice
returned by an indicator is modelled as `none`.
-/

set_option maxRecDepth 4000

namespace RsiStrat

/-- One OHLCV bar (`Kline` in `indicator.go`). -/
structure Kline where
  timestamp : ℤ
  open_ : ℚ
  high : ℚ
  low : ℚ
  close : ℚ
  volume : ℚ
  deriving Repr, DecidableEq, Inhabited

/-! ## Indicator engine (`indicator.go`) -/

/-- Close-to-close deltas: `changes[i-1] = close[i] - close[i-1]`. -/
def rsiChanges (klines : List Kline) : List ℚ :=
  (List.range (klines.length - 1)).map fun j =>
    (klines.getD (j + 1) default).close - (klines.getD j default).close

/-- The RSI value written at index `i ≥ period`: simple means of positive
deltas and magnitudes of negative deltas over the trailing `period` deltas
(`for j := i - period; j < i; j++`). -/
def rsiAt (changes : List ℚ) (period i : ℕ) : ℚ :=
  let window := (List.range period).map fun j => changes.getD (i - period + j) 0
  let gains := (window.map fun c => if 0 < c then c else 0).sum
  let losses := (window.map fun c => if 0 < c then 0 else |c|).sum
  let avgGain := gains / (period : ℚ)
  let avgLoss := losses / (period : ℚ)
  if avgLoss = 0 then 100 else 100 - 100 / (1 + avgGain / avgLoss)

/-- `CalculateRSI` from `indicator.go`: returns `none` (Go `nil`) when the
series has fewer than `period+1` bars, otherwise an array of the input
length, zero before index `period`. -/
def CalculateRSI (klines : List Kline) (period : ℕ) : Option (List ℚ) :=
  if klines.length < period + 1 then none
  else some ((List.range klines.length).map fun i =>
    if i < period then 0 else rsiAt (rsiChanges klines) period i)

/-- The EMA recurrence `ema[i] = (close[i] - ema[i-1])·mult + ema[i-1]`. -/
def emaFrom (mult : ℚ) : ℚ → List ℚ → List ℚ
  | _, [] => []
  | prev, c :: cs =>
    let e := (c - prev) * mult + prev
    e :: emaFrom mult e cs

/-- `CalculateEMA` from `indicator.go`: `none` when fewer than `period` bars;
seeded at index `period-1` with the simple mean of the first `period` closes. -/
def CalculateEMA (klines : List Kline) (period : ℕ) : Option (List ℚ) :=
  if klines.length < period then none
  else
    let closes := klines.map (·.close)
    let sma := (closes.take period).sum / (period : ℚ)
    some (List.replicate (period - 1) 0 ++ sma :: emaFrom (2 / ((period : ℚ) + 1)) sma (closes.drop period))

/-- `CalculateVolumeMA` from `indicator.go`. -/
def CalculateVolumeMA (klines : List Kline) (period : ℕ) : Option (List ℚ) :=
  if klines.length < period then none
  else some ((List.range klines.length).map fun i =>
    if i < period - 1 then 0
    else (((klines.map (·.volume)).drop (i + 1 - period)).take period).sum / (period : ℚ))

/-- `VolumeRatio` from `indicator.go`: `volume[i] / volumeMA[i]`, zero where
the moving average is not positive. -/
def VolumeRatio (klines : List Kline) (period : ℕ) : Option (List ℚ) :=
  match CalculateVolumeMA klines period with
  | none => none
  | some ma => some (List.zipWith (fun m (k : Kline) => if 0 < m then k.volume / m else 0) ma klines)

/-! ## Bounce strategy engine (`bounce.go`) -/

/-- "LONG" / "SHORT" side strings. -/
inductive TradeSide
  | LONG
  | SHORT
  deriving Repr, DecidableEq

/-- The closing-reason strings written into `BounceTrade.Reason`:
`"RSI止损"`, `"最大持仓时间"`, `"分批止盈#n(x%)"`, `"分批止盈完成"`, `""`. -/
inductive BounceReason
  | blank
  | rsiStop
  | maxHold
  | tpPartial (slot : ℕ) (bounce : ℚ)
  | tpDone
  deriving Repr, DecidableEq

/-- `BounceConfig` from `bounce.go`. -/
structure BounceConfig where
  Symbol : String
  StartBalance : ℚ
  FeeRate : ℚ
  Leverage : ℚ
  DropLookback : ℕ
  DropThreshold : ℚ
  RSIOversold : ℚ
  RSIEntry : ℚ
  FirstBatchSize : ℚ
  OtherBatchSize : ℚ
  BatchInterval : ℤ
  MaxBatches : ℕ
  BounceTarget : ℚ
  ProfitThreshold : ℚ
  StartExitTime : ℤ
  ExitInterval : ℤ
  ExitPercent : ℚ
  MaxHoldTime : ℤ
  RSIExit : ℚ
  deriving Repr, DecidableEq

/-- `BounceEntry` from `bounce.go`. -/
structure BounceEntry where
  entryTime : ℤ
  entryPrice : ℚ
  amount : ℚ
  batch : ℕ
  deriving Repr, DecidableEq

/-- `BouncePosition` from `bounce.go`. -/
structure BouncePosition where
  side : TradeSide
  entryTime : ℤ
  lowPrice : ℚ
  highPrice : ℚ
  targetPrice : ℚ
  entries : List BounceEntry
  totalAmt : ℚ
  avgPrice : ℚ
  lastBatchTime : ℤ
  batchCount : ℕ
  startExitTime : ℤ
  exitCount : ℕ
  deriving Repr, DecidableEq

/-- `BounceTrade` from `bounce.go`. -/
structure BounceTrade where
  EntryTime : ℤ
  ExitTime : ℤ
  side : TradeSide
  EntryPrice : ℚ
  ExitPrice : ℚ
  Amount : ℚ
  PnL : ℚ
  Fee : ℚ
  Reason : BounceReason
  deriving Repr, DecidableEq

/-- `BounceResult` from `bounce.go`. -/
structure BounceResult where
  TotalTrades : ℕ
  WinTrades : ℕ
  LoseTrades : ℕ
  TotalPnL : ℚ
  TotalFees : ℚ
  WinRate : ℚ
  ProfitFactor : ℚ
  MaxDrawdown : ℚ
  Trades : List BounceTrade
  BalanceCurve : List ℚ
  deriving Repr, DecidableEq

/-- The mutable local state of the `RunBounceBacktest` loop. -/
structure BounceState where
  balance : ℚ
  position : Option BouncePosition
  maxBalance : ℚ
  result : BounceResult
  deriving Repr, DecidableEq

/-- Sum of the live tranche amounts (`position.totalAmt` recomputation). -/
def entriesAmtSum (entries : List BounceEntry) : ℚ :=
  (entries.map (·.amount)).sum

/-- Sum of `entryPrice × amount` over the live tranches. -/
def entriesNotionalSum (entries : List BounceEntry) : ℚ :=
  (entries.map (fun e => e.entryPrice * e.amount)).sum

/-- Construction of one `BounceTrade` for a (partially) liquidated tranche:
gross PnL `(exit-entry)·amt` for LONG / `(entry-exit)·amt` for SHORT, fee
`(entry+exit)·amt·feeRate`, net PnL `gross - fee`. -/
def mkBounceTrade (side : TradeSide) (e : BounceEntry) (exitTime : ℤ) (exitPrice : ℚ)
    (amt : ℚ) (feeRate : ℚ) (reason : BounceReason) : BounceTrade :=
  let fee := (e.entryPrice + exitPrice) * amt * feeRate
  let gross := match side with
    | .LONG => (exitPrice - e.entryPrice) * amt
    | .SHORT => (e.entryPrice - exitPrice) * amt
  ⟨e.entryTime, exitTime, side, e.entryPrice, exitPrice, amt, gross - fee, fee, reason⟩

/-- Recording a trade: `balance += PnL`, append, update totals and the
win/lose counters (`PnL > 0` wins, otherwise a loss). -/
def applyBounceTrade (r : BounceResult) (balance : ℚ) (t : BounceTrade) :
    BounceResult × ℚ :=
  ({ r with
      Trades := r.Trades ++ [t]
      TotalPnL := r.TotalPnL + t.PnL
      TotalFees := r.TotalFees + t.Fee
      TotalTrades := r.TotalTrades + 1
      WinTrades := r.WinTrades + (if 0 < t.PnL then 1 else 0)
      LoseTrades := r.LoseTrades + (if 0 < t.PnL then 0 else 1) },
   balance + t.PnL)

/-- The FIFO partial-liquidation loop of the scheduled take-profit in
`RunBounceBacktest` (`for _, entry := range position.entries` with the
`closed` accumulator): returns the kept entries and the emitted trades. -/
def partialCloseLoop (side : TradeSide) (exitTime : ℤ) (exitPrice feeRate : ℚ)
    (reason : BounceReason) (closeAmt : ℚ) :
    List BounceEntry → ℚ → List BounceEntry × List BounceTrade
  | [], _ => ([], [])
  | e :: rest, closed =>
    if decide (closed < closeAmt) && decide (0 < e.amount) then
      let split := decide (closeAmt < closed + e.amount)
      let closeThis := if split then closeAmt - closed else e.amount
      let kept : List BounceEntry :=
        if split then [{ e with amount := e.amount - closeThis }] else []
      let t := mkBounceTrade side e exitTime exitPrice closeThis feeRate reason
      let pr := partialCloseLoop side exitTime exitPrice feeRate reason closeAmt rest (closed + closeThis)
      (kept ++ pr.1, t :: pr.2)
    else
      let pr := partialCloseLoop side exitTime exitPrice feeRate reason closeAmt rest closed
      (e :: pr.1, pr.2)

/-- The full-close loop (`执行全平`): one trade per entry with positive
amount, entries with `amount ≤ 0` skipped. -/
def fullCloseEntries (side : TradeSide) (exitTime : ℤ) (exitPrice feeRate : ℚ)
    (reason : BounceReason) : List BounceEntry → List BounceTrade
  | [] => []
  | e :: rest =>
    if e.amount ≤ 0 then fullCloseEntries side exitTime exitPrice feeRate reason rest
    else mkBounceTrade side e exitTime exitPrice e.amount feeRate reason ::
      fullCloseEntries side exitTime exitPrice feeRate reason rest

/-- The sequential `shouldClose`/`closeReason` updates of the two first exit
checks of `RunBounceBacktest`: the RSI stop, then the maximum holding time
(each `if` overwrites the previous reason). -/
def bounceCloseDecision (cfg : BounceConfig) (currentRSI : ℚ) (holdTime : ℤ) :
    Bool × BounceReason :=
  let sc1 : Bool × BounceReason :=
    if currentRSI < cfg.RSIExit then (true, .rsiStop) else (false, .blank)
  if cfg.MaxHoldTime ≤ holdTime then (true, .maxHold) else sc1

/-- The scheduled partial take-profit block of `RunBounceBacktest` (third
exit check).  Takes the pending close decision and returns the updated
position, decision, balance and result. -/
def bounceTPStep (cfg : BounceConfig) (k : Kline) (pos : BouncePosition)
    (balance : ℚ) (result : BounceResult) (sc : Bool × BounceReason) :
    BouncePosition × (Bool × BounceReason) × ℚ × BounceResult :=
  let timeSinceEntry := k.timestamp - pos.entryTime
  let currentBounce := (k.close - pos.lowPrice) / (pos.highPrice - pos.lowPrice)
  if decide (cfg.StartExitTime ≤ timeSinceEntry) && decide (cfg.ProfitThreshold ≤ currentBounce) then
    let timeSinceExitStart := timeSinceEntry - cfg.StartExitTime
    let expectedExitCount := timeSinceExitStart.tdiv cfg.ExitInterval + 1
    if decide ((pos.exitCount : ℤ) < expectedExitCount) then
      let closeAmt := pos.totalAmt * cfg.ExitPercent
      let reason := BounceReason.tpPartial (pos.exitCount + 1) currentBounce
      let pr := partialCloseLoop pos.side k.timestamp k.close cfg.FeeRate reason closeAmt pos.entries 0
      let rb := pr.2.foldl (fun rb t => applyBounceTrade rb.1 rb.2 t) (result, balance)
      let newTotal := entriesAmtSum pr.1
      let pos2 := { pos with entries := pr.1, totalAmt := newTotal, exitCount := pos.exitCount + 1 }
      let sc2 := if newTotal < 1 / 10000 then (true, BounceReason.tpDone) else sc
      (pos2, sc2, rb.2, rb.1)
    else (pos, sc, balance, result)
  else (pos, sc, balance, result)

/-- The whole exit block of `RunBounceBacktest` (`出场逻辑`). -/
def bounceExitPhase (cfg : BounceConfig) (k : Kline) (currentRSI : ℚ)
    (s : BounceState) : BounceState :=
  match s.position with
  | none => s
  | some pos =>
    let sc := bounceCloseDecision cfg currentRSI (k.timestamp - pos.entryTime)
    let out := bounceTPStep cfg k pos s.balance s.result sc
    let pos2 := out.1
    let sc2 := out.2.1
    let balance2 := out.2.2.1
    let result2 := out.2.2.2
    if sc2.1 && !pos2.entries.isEmpty then
      let trades := fullCloseEntries pos2.side k.timestamp k.close cfg.FeeRate sc2.2 pos2.entries
      let rb := trades.foldl (fun rb t => applyBounceTrade rb.1 rb.2 t) (result2, balance2)
      ⟨rb.2, none, s.maxBalance, rb.1⟩
    else ⟨balance2, some pos2, s.maxBalance, result2⟩

/-- Creation of the position's first tranche (`建仓逻辑`, first batch). -/
def bounceOpenPosition (ts : ℤ) (price lowPrice highPrice targetPrice amount : ℚ) :
    BouncePosition :=
  ⟨.LONG, ts, lowPrice, highPrice, targetPrice,
    [⟨ts, price, amount, 1⟩], amount, price, ts, 1, 0, 0⟩

/-- Adding a scale-in tranche (`加仓逻辑`): append the entry, add the amount,
and update the average price incrementally with the new total. -/
def bounceScaleIn (pos : BouncePosition) (ts : ℤ) (price amount : ℚ) :
    BouncePosition :=
  let newTotal := pos.totalAmt + amount
  { pos with
      entries := pos.entries ++ [⟨ts, price, amount, pos.batchCount + 1⟩]
      totalAmt := newTotal
      avgPrice := (pos.avgPrice * (newTotal - amount) + price * amount) / newTotal
      lastBatchTime := ts
      batchCount := pos.batchCount + 1 }

/-- The entry / scale-in block of `RunBounceBacktest`, acting on the
`(position, balance)` pair it mutates. -/
def bounceEntryCore (cfg : BounceConfig) (k : Kline) (currentRSI prevRSI : ℚ)
    (highPrice lowPrice : ℚ) (hasDrop uptrend : Bool)
    (pb : Option BouncePosition × ℚ) : Option BouncePosition × ℚ :=
  match pb.1 with
  | none =>
    if hasDrop && decide (prevRSI < cfg.RSIOversold) && decide (cfg.RSIEntry ≤ currentRSI) && uptrend then
      let targetPrice := lowPrice + (highPrice - lowPrice) * cfg.BounceTarget
      let notional := pb.2 * cfg.FirstBatchSize
      let amount := notional / k.close
      (some (bounceOpenPosition k.timestamp k.close lowPrice highPrice targetPrice amount),
       pb.2 - k.close * amount * cfg.FeeRate)
    else pb
  | some pos =>
    if pos.batchCount < cfg.MaxBatches then
      if cfg.BatchInterval ≤ k.timestamp - pos.lastBatchTime then
        if decide (cfg.RSIEntry ≤ currentRSI) && uptrend then
          let notional := pb.2 * cfg.OtherBatchSize
          let amount := notional / k.close
          (some (bounceScaleIn pos k.timestamp k.close amount),
           pb.2 - k.close * amount * cfg.FeeRate)
        else pb
      else pb
    else pb

/-- The entry / scale-in block of `RunBounceBacktest` as a state update
(only `position` and `balance` are touched). -/
def bounceEntryPhase (cfg : BounceConfig) (k : Kline) (currentRSI prevRSI : ℚ)
    (highPrice lowPrice : ℚ) (hasDrop uptrend : Bool) (s : BounceState) : BounceState :=
  let pb := bounceEntryCore cfg k currentRSI prevRSI highPrice lowPrice hasDrop uptrend
    (s.position, s.balance)
  ⟨pb.2, pb.1, s.maxBalance, s.result⟩

/-- Per-bar bookkeeping: append the balance to the curve, update the peak
balance and the maximum drawdown `(peak - balance)/peak`. -/
def bounceBookkeeping (s : BounceState) : BounceState :=
  let maxB := max s.maxBalance s.balance
  let dd := (maxB - s.balance) / maxB
  { s with
      maxBalance := maxB
      result := { s.result with
          BalanceCurve := s.result.BalanceCurve ++ [s.balance]
          MaxDrawdown := max s.result.MaxDrawdown dd } }

/-- The highest `High` over bars `i-1 … i-DropLookback` (drop detection). -/
def dropHigh (klines : List Kline) (lookback i : ℕ) : ℚ :=
  (List.range (lookback - 1)).foldl
    (fun acc j => max acc (klines.getD (i - (j + 2)) default).high)
    (klines.getD (i - 1) default).high

/-- The lowest `Low` over bars `i-1 … i-DropLookback` (drop detection). -/
def dropLow (klines : List Kline) (lookback i : ℕ) : ℚ :=
  (List.range (lookback - 1)).foldl
    (fun acc j => min acc (klines.getD (i - (j + 2)) default).low)
    (klines.getD (i - 1) default).low

/-- The body of the `for i := config.DropLookback; i < n; i++` loop. -/
def bounceStep (cfg : BounceConfig) (klines : List Kline) (rsi ema5 ema13 : List ℚ)
    (i : ℕ) (s : BounceState) : BounceState :=
  let k := klines.getD i default
  let currentRSI := rsi.getD i 0
  let prevRSI := rsi.getD (i - 1) 0
  let highPrice := dropHigh klines cfg.DropLookback i
  let lowPrice := dropLow klines cfg.DropLookback i
  let dropPercent := (highPrice - lowPrice) / highPrice
  let hasDrop := decide (cfg.DropThreshold ≤ dropPercent)
  let uptrend := decide (ema13.getD i 0 < ema5.getD i 0)
  bounceBookkeeping
    (bounceEntryPhase cfg k currentRSI prevRSI highPrice lowPrice hasDrop uptrend
      (bounceExitPhase cfg k currentRSI s))

/-- The initial loop state: starting balance, no position, empty result with
the starting balance as the first balance-curve point. -/
def bounceInit (cfg : BounceConfig) : BounceState :=
  ⟨cfg.StartBalance, none, cfg.StartBalance,
    ⟨0, 0, 0, 0, 0, 0, 0, 0, [], [cfg.StartBalance]⟩⟩

/-- The state after the first `m` iterations of the loop (bars
`DropLookback … DropLookback+m-1`). -/
def bounceRunUpTo (cfg : BounceConfig) (klines : List Kline) (m : ℕ) : BounceState :=
  let rsi := (CalculateRSI klines 14).getD []
  let ema5 := (CalculateEMA klines 5).getD []
  let ema13 := (CalculateEMA klines 13).getD []
  (List.range' cfg.DropLookback m).foldl
    (fun s i => bounceStep cfg klines rsi ema5 ema13 i s) (bounceInit cfg)

/-- The final statistics block: win rate (only when there were trades) and
profit factor (only when there were losing trades). -/
def finalizeBounce (r : BounceResult) : BounceResult :=
  let r1 := if 0 < r.TotalTrades then
      { r with WinRate := (r.WinTrades : ℚ) / (r.TotalTrades : ℚ) } else r
  let totalWin := ((r.Trades.filter (fun t => decide (0 < t.PnL))).map (·.PnL)).sum
  let totalLose := ((r.Trades.filter (fun t => !decide (0 < t.PnL))).map (fun t => -t.PnL)).sum
  if 0 < totalLose then { r1 with ProfitFactor := totalWin / totalLose } else r1

/-- `RunBounceBacktest` from `bounce.go`. -/
def RunBounceBacktest (klines : List Kline) (cfg : BounceConfig) : BounceResult :=
  let n := klines.length
  if n < cfg.DropLookback + 20 then (bounceInit cfg).result
  else finalizeBounce (bounceRunUpTo cfg klines (n - cfg.DropLookback)).result

/-! ## Generic backtest engine (`backtest.go`) -/

/-- `BacktestConfig` from `backtest.go`. -/
structure BacktestConfig where
  Symbol : String
  StartBalance : ℚ
  FeeRate : ℚ
  Leverage : ℚ
  PositionSize : ℚ
  deriving Repr, DecidableEq

/-- `StrategyConfig` from `indicator.go` (long/short split variant used by
`RunBacktest`). -/
structure StrategyConfig where
  RSI_PERIOD : ℕ
  RSI_OVERSOLD_LONG : ℚ
  RSI_ENTRY_LONG : ℚ
  RSI_OVERBOUGHT_SHORT : ℚ
  RSI_ENTRY_SHORT : ℚ
  EMA_FAST : ℕ
  EMA_SLOW : ℕ
  VOL_RATIO_THRESHOLD : ℚ
  deriving Repr, DecidableEq

/-- `PositionEntry` from `backtest.go`. -/
structure PositionEntry where
  entryTime : ℤ
  entryPrice : ℚ
  amount : ℚ
  batch : ℕ
  deriving Repr, DecidableEq

/-- `Position` from `backtest.go`. -/
structure Position where
  side : TradeSide
  entries : List PositionEntry
  totalAmt : ℚ
  avgPrice : ℚ
  deriving Repr, DecidableEq

/-- `Trade` from `backtest.go`. -/
structure Trade where
  EntryTime : ℤ
  ExitTime : ℤ
  side : TradeSide
  EntryPrice : ℚ
  ExitPrice : ℚ
  Amount : ℚ
  PnL : ℚ
  Fee : ℚ
  deriving Repr, DecidableEq

/-- `BacktestResult` from `backtest.go`. -/
structure BacktestResult where
  TotalTrades : ℕ
  WinTrades : ℕ
  LoseTrades : ℕ
  TotalPnL : ℚ
  TotalFees : ℚ
  WinRate : ℚ
  ProfitFactor : ℚ
  MaxDrawdown : ℚ
  SharpeRatio : ℚ
  Trades : List Trade
  BalanceCurve : List ℚ
  deriving Repr, DecidableEq

/-- The mutable local state of the `RunBacktest` loop. -/
structure BacktestState where
  balance : ℚ
  position : Option Position
  maxBalance : ℚ
  result : BacktestResult
  deriving Repr, DecidableEq

/-- The hardcoded first-batch fraction (`firstBatchSize := 0.20`). -/
def firstBatchSize : ℚ := 1 / 5

/-- The hardcoded second-batch fraction (`secondBatchSize := 0.20`). -/
def secondBatchSize : ℚ := 1 / 5

/-- Construction of one `Trade` on a full close in `RunBacktest`:
gross PnL by side, fee `(entry+exit)·amount·feeRate`, net `gross - fee`. -/
def mkTrade (side : TradeSide) (e : PositionEntry) (exitTime : ℤ)
    (exitPrice feeRate : ℚ) : Trade :=
  let gross := match side with
    | .LONG => (exitPrice - e.entryPrice) * e.amount
    | .SHORT => (e.entryPrice - exitPrice) * e.amount
  let fee := (e.entryPrice + exitPrice) * e.amount * feeRate
  ⟨e.entryTime, exitTime, side, e.entryPrice, exitPrice, e.amount, gross - fee, fee⟩

/-- Recording a trade in `RunBacktest`: `balance += PnL`, append, update
totals and the win/lose counters. -/
def applyTrade (r : BacktestResult) (balance : ℚ) (t : Trade) :
    BacktestResult × ℚ :=
  ({ r with
      Trades := r.Trades ++ [t]
      TotalPnL := r.TotalPnL + t.PnL
      TotalFees := r.TotalFees + t.Fee
      TotalTrades := r.TotalTrades + 1
      WinTrades := r.WinTrades + (if 0 < t.PnL then 1 else 0)
      LoseTrades := r.LoseTrades + (if 0 < t.PnL then 0 else 1) },
   balance + t.PnL)

/-- The exit block of `RunBacktest` (`出场逻辑`): EMA-reversal cross against
the position side, or the -3% stop loss; on trigger every entry is closed. -/
def backtestExitPhase (k : Kline) (feeRate : ℚ) (crossUp crossDown : Bool)
    (s : BacktestState) : BacktestState :=
  match s.position with
  | none => s
  | some pos =>
    let emaClose := (pos.side == TradeSide.LONG && crossDown) ||
                    (pos.side == TradeSide.SHORT && crossUp)
    let pnlPercent0 := (k.close - pos.avgPrice) / pos.avgPrice
    let pnlPercent := if pos.side == TradeSide.SHORT then -pnlPercent0 else pnlPercent0
    let shouldClose := emaClose || decide (pnlPercent ≤ -3 / 100)
    if shouldClose && !pos.entries.isEmpty then
      let trades := pos.entries.map (fun e => mkTrade pos.side e k.timestamp k.close feeRate)
      let rb := trades.foldl (fun rb t => applyTrade rb.1 rb.2 t) (s.result, s.balance)
      ⟨rb.2, none, s.maxBalance, rb.1⟩
    else s

/-- Appending one batch entry to a (possibly fresh) position in `RunBacktest`:
append, add the amount, update the average price with the new total. -/
def posAddEntry (pos : Position) (ts : ℤ) (price amount : ℚ) (batch : ℕ) : Position :=
  let newTotal := pos.totalAmt + amount
  { pos with
      entries := pos.entries ++ [⟨ts, price, amount, batch⟩]
      totalAmt := newTotal
      avgPrice := (pos.avgPrice * (newTotal - amount) + price * amount) / newTotal }

/-- The long entry block of `RunBacktest` (`做多`), acting on the
`(position, balance)` pair, with `currentPositionPct` (`pct`) supplied by
the caller. -/
def backtestLongBlock (k : Kline) (feeRate : ℚ) (sc : StrategyConfig)
    (currentRSI prevRSI : ℚ) (uptrend volumeOK : Bool) (pct : ℚ)
    (pb : Option Position × ℚ) : Option Position × ℚ :=
  let sideOK : Bool := match pb.1 with
    | none => true
    | some p => p.side == TradeSide.LONG
  if sideOK && uptrend then
    let rsiBull := decide (prevRSI < sc.RSI_OVERSOLD_LONG) && decide (sc.RSI_ENTRY_LONG ≤ currentRSI)
    let pbA :=
      if rsiBull && volumeOK && decide (pct < firstBatchSize) then
        let pos0 := pb.1.getD ⟨.LONG, [], 0, 0⟩
        let notional := pb.2 * firstBatchSize
        let amount := notional / k.close
        (some (posAddEntry pos0 k.timestamp k.close amount 1),
         pb.2 - k.close * amount * feeRate)
      else pb
    match pbA.1 with
    | none => pbA
    | some p =>
      if p.entries.length = 1 then
        let pnlPercent := (k.close - p.avgPrice) / p.avgPrice
        if decide (3 / 200 ≤ pnlPercent) && decide (pct < firstBatchSize + secondBatchSize) then
          let notional := pbA.2 * secondBatchSize
          let amount := notional / k.close
          (some (posAddEntry p k.timestamp k.close amount 2),
           pbA.2 - k.close * amount * feeRate)
        else pbA
      else pbA
  else pb

/-- The short entry block of `RunBacktest` (`做空`), mirror of the long
block. -/
def backtestShortBlock (k : Kline) (feeRate : ℚ) (sc : StrategyConfig)
    (currentRSI prevRSI : ℚ) (downtrend volumeOK : Bool) (pct : ℚ)
    (pb : Option Position × ℚ) : Option Position × ℚ :=
  let sideOK : Bool := match pb.1 with
    | none => true
    | some p => p.side == TradeSide.SHORT
  if sideOK && downtrend then
    let rsiBear := decide (sc.RSI_OVERBOUGHT_SHORT < prevRSI) && decide (currentRSI ≤ sc.RSI_ENTRY_SHORT)
    let pbB :=
      if rsiBear && volumeOK && decide (pct < firstBatchSize) then
        let pos0 := pb.1.getD ⟨.SHORT, [], 0, 0⟩
        let notional := pb.2 * firstBatchSize
        let amount := notional / k.close
        (some (posAddEntry pos0 k.timestamp k.close amount 1),
         pb.2 - k.close * amount * feeRate)
      else pb
    match pbB.1 with
    | none => pbB
    | some p =>
      if p.entries.length = 1 then
        let pnlPercent := (p.avgPrice - k.close) / p.avgPrice
        if decide (3 / 200 ≤ pnlPercent) && decide (pct < firstBatchSize + secondBatchSize) then
          let notional := pbB.2 * secondBatchSize
          let amount := notional / k.close
          (some (posAddEntry p k.timestamp k.close amount 2),
           pbB.2 - k.close * amount * feeRate)
        else pbB
      else pbB
  else pb

/-- The entry block of `RunBacktest` (`建仓逻辑`): the long block followed by
the mirrored short block, with `currentPositionPct` computed once before
both; only `position` and `balance` are touched. -/
def backtestEntryPhase (k : Kline) (feeRate : ℚ) (sc : StrategyConfig)
    (currentRSI prevRSI : ℚ) (uptrend downtrend volumeOK : Bool)
    (s : BacktestState) : BacktestState :=
  let currentPositionPct := match s.position with
    | none => 0
    | some p => p.totalAmt * k.close / s.balance
  let pb1 := backtestLongBlock k feeRate sc currentRSI prevRSI uptrend volumeOK
    currentPositionPct (s.position, s.balance)
  let pb2 := backtestShortBlock k feeRate sc currentRSI prevRSI downtrend volumeOK
    currentPositionPct pb1
  ⟨pb2.2, pb2.1, s.maxBalance, s.result⟩

/-- Per-bar bookkeeping of `RunBacktest`: append the balance to the curve,
update the peak balance, record the maximum drawdown. -/
def backtestBookkeeping (s : BacktestState) : BacktestState :=
  let maxB := max s.maxBalance s.balance
  let dd := (maxB - s.balance) / maxB
  { s with
      maxBalance := maxB
      result := { s.result with
          BalanceCurve := s.result.BalanceCurve ++ [s.balance]
          MaxDrawdown := max s.result.MaxDrawdown dd } }

/-- The body of the `for i := 50; i < n; i++` loop of `RunBacktest`. -/
def backtestStep (feeRate : ℚ) (sc : StrategyConfig) (klines : List Kline)
    (rsi emaFast emaSlow volRatio : List ℚ) (i : ℕ) (s : BacktestState) : BacktestState :=
  let k := klines.getD i default
  let currentRSI := rsi.getD i 0
  let prevRSI := rsi.getD (i - 1) 0
  let currentEMAFast := emaFast.getD i 0
  let currentEMASlow := emaSlow.getD i 0
  let prevEMAFast := emaFast.getD (i - 1) 0
  let prevEMASlow := emaSlow.getD (i - 1) 0
  let currentVolRatio := volRatio.getD i 0
  let crossUp := decide (prevEMAFast ≤ prevEMASlow) && decide (currentEMASlow < currentEMAFast)
  let crossDown := decide (prevEMASlow ≤ prevEMAFast) && decide (currentEMAFast < currentEMASlow)
  let uptrend := decide (currentEMASlow < currentEMAFast)
  let downtrend := decide (currentEMAFast < currentEMASlow)
  let volumeOK := decide (sc.VOL_RATIO_THRESHOLD ≤ currentVolRatio)
  backtestBookkeeping
    (backtestEntryPhase k feeRate sc currentRSI prevRSI uptrend downtrend volumeOK
      (backtestExitPhase k feeRate crossUp crossDown s))

/-- The initial loop state of `RunBacktest`. -/
def backtestInit (startBalance : ℚ) : BacktestState :=
  ⟨startBalance, none, startBalance,
    ⟨0, 0, 0, 0, 0, 0, 0, 0, 0, [], [startBalance]⟩⟩

/-- The state after the first `m` iterations of the `RunBacktest` loop
(bars `50 … 50+m-1`). -/
def backtestRunUpTo (klines : List Kline) (startBalance feeRate : ℚ)
    (sc : StrategyConfig) (m : ℕ) : BacktestState :=
  let rsi := (CalculateRSI klines sc.RSI_PERIOD).getD []
  let emaFast := (CalculateEMA klines sc.EMA_FAST).getD []
  let emaSlow := (CalculateEMA klines sc.EMA_SLOW).getD []
  let volRatio := (VolumeRatio klines sc.RSI_PERIOD).getD []
  (List.range' 50 m).foldl
    (fun s i => backtestStep feeRate sc klines rsi emaFast emaSlow volRatio i s)
    (backtestInit startBalance)

/-- The final statistics block of `RunBacktest`. -/
def finalizeBacktest (r : BacktestResult) : BacktestResult :=
  let r1 := if 0 < r.TotalTrades then
      { r with WinRate := (r.WinTrades : ℚ) / (r.TotalTrades : ℚ) } else r
  let totalWin := ((r.Trades.filter (fun t => decide (0 < t.PnL))).map (·.PnL)).sum
  let totalLose := ((r.Trades.filter (fun t => !decide (0 < t.PnL))).map (fun t => -t.PnL)).sum
  if 0 < totalLose then { r1 with ProfitFactor := totalWin / totalLose } else r1

/-- `RunBacktest` on the configuration fields it actually reads
(`StartBalance` and `FeeRate`). -/
def backtestRun (klines : List Kline) (startBalance feeRate : ℚ)
    (sc : StrategyConfig) : BacktestResult :=
  let n := klines.length
  if n < 50 then (backtestInit startBalance).result
  else finalizeBacktest (backtestRunUpTo klines startBalance feeRate sc (n - 50)).result

/-- `RunBacktest` from `backtest.go`: of the whole `BacktestConfig` only
`StartBalance` and `FeeRate` are read by the function body. -/
def RunBacktest (klines : List Kline) (cfg : BacktestConfig) (sc : StrategyConfig) :
    BacktestResult :=
  backtestRun klines cfg.StartBalance cfg.FeeRate sc

/-! ## Concrete runs used by counterexamples and witnesses -/

/-- A 21-bar series: constant closes 100 except close 200 at index 5,
highs 101, lows 99, unit volume, one-second bars. -/
def c1Klines : List Kline :=
  (List.range 21).map fun i =>
    ⟨(i : ℤ), 100, 101, 99, if i = 5 then 200 else 100, 1⟩

/-- A permissive bounce configuration that opens at bar 4, scales in at
bar 5 and partially liquidates at bar 6 of `c1Klines`. -/
def c1cfg : BounceConfig :=
  ⟨"BTCUSDT", 10000, 0, 0, 1, 0, 1000, 0, 1/10, 1/10, 1, 2, 0, -1000, 2, 1000, 1/4, 1000, -1⟩

/-- Same as `c1cfg` except the position is closed at bar 5 with both the
RSI stop and the maximum-holding-time condition true at once
(`RSIExit = 1000`, `MaxHoldTime = 1`, partial take-profit disabled). -/
def c4cfg : BounceConfig :=
  ⟨"BTCUSDT", 10000, 0, 0, 1, 0, 1000, 0, 1/10, 1/10, 1, 2, 0, -1000, 10000, 1000, 1/4, 1, 1000⟩

/-- A 52-bar series declining from 1000 by 1 per bar, with a spike to
100000 at the last bar. -/
def c5Klines : List Kline :=
  (List.range 52).map fun (i : ℕ) =>
    let c : ℚ := if i = 51 then 100000 else 1000 - (i : ℚ)
    ⟨(i : ℤ), c, c, c, c, 1⟩

/-- A permissive strategy configuration (RSI period 1, EMAs 1/2) under which
`c5Klines` opens a short at bar 50 and closes it at the spike bar 51. -/
def c5sc : StrategyConfig :=
  ⟨1, -5, 0, -1, 101, 1, 2, 1⟩

/-- Backtest configuration used with `c5sc`. -/
def c5cfg : BacktestConfig :=
  ⟨"BTCUSDT", 10000, 0, 1, 1/2⟩

/-! ## Specification-side definitions

These definitions follow the wording of the specification (not the code);
the refinement theorems below compare the code against them. -/

/-- The spec's close-to-close delta at index `j`. -/
def specDelta (klines : List Kline) (j : ℕ) : ℚ :=
  (klines.getD (j + 1) default).close - (klines.getD j default).close

/-- The spec's average gain: simple mean of the positive deltas over the
trailing `period` deltas ending just before bar `i`. -/
def specAvgGain (klines : List Kline) (period i : ℕ) : ℚ :=
  (((List.range period).map fun j =>
    let d := specDelta klines (i - period + j)
    if 0 < d then d else 0).sum) / (period : ℚ)

/-- The spec's average loss: simple mean of the magnitudes of the
non-positive deltas over the same trailing window. -/
def specAvgLoss (klines : List Kline) (period i : ℕ) : ℚ :=
  (((List.range period).map fun j =>
    let d := specDelta klines (i - period + j)
    if 0 < d then 0 else |d|).sum) / (period : ℚ)

/-- The RSI value claimed by the spec at index `i ≥ period`: 100 when the
average loss is zero, else `100 - 100/(1 + avgGain/avgLoss)`. -/
def rsiSpecAt (klines : List Kline) (period i : ℕ) : ℚ :=
  if specAvgLoss klines period i = 0 then 100
  else 100 - 100 / (1 + specAvgGain klines period i / specAvgLoss klines period i)

/-- The spec's FIFO liquidation: remove `amt` units from the front of the
tranche list, splitting the tranche in which the boundary falls. -/
def fifoDrop (amt : ℚ) : List BounceEntry → List BounceEntry
  | [] => []
  | e :: rest =>
    if amt ≤ 0 then e :: rest
    else if e.amount ≤ amt then fifoDrop (amt - e.amount) rest
    else { e with amount := e.amount - amt } :: rest

/-- Rounded-up integer division (the claim's "divided by ExitInterval
rounded up"), for positive divisors. -/
def ceilDiv (a b : ℤ) : ℤ := (a + b - 1).ediv b

/-- The number of loop iterations of `RunBacktest` on `n` bars. -/
def backtestProcessedBars (n : ℕ) : ℕ := if n < 50 then 0 else n - 50

/-- A 16-bar strictly rising close series (closes `1 … 16`). -/
def w6Klines : List Kline :=
  (List.range 16).map fun (i : ℕ) => ⟨(i : ℤ), (i : ℚ) + 1, (i : ℚ) + 1, (i : ℚ) + 1, (i : ℚ) + 1, 1⟩

/-- A two-tranche position (prices 100 and 200, amounts 10 and 5) used to
instantiate hypotheses of the partial-take-profit theorem. -/
def wPos : BouncePosition :=
  ⟨.LONG, -2, 99, 101, 100, [⟨-2, 100, 10, 1⟩, ⟨-1, 200, 5, 2⟩], 15, 400/3, -1, 2, 0, 0⟩

/-- A bar at time 0 used with `wPos`. -/
def wKline : Kline := ⟨0, 100, 101, 99, 100, 1⟩

/-- Backtest configurations that differ only in the `Leverage` field. -/
def w9cfgA : BacktestConfig := ⟨"BTCUSDT", 10000, 1/2500, 5, 1/2⟩

/-- Same as `w9cfgA` with a different leverage. -/
def w9cfgB : BacktestConfig := ⟨"BTCUSDT", 10000, 1/2500, 20, 1/2⟩

end RsiStrat

namespace RsiStrat

attribute [local semireducible] Rat.add Rat.mul Rat.inv Rat.sub

/-! ## Helper lemmas -/

theorem getD_range_map {α : Type} (f : ℕ → α) (m j : ℕ) (d : α) (h : j < m) :
    ((List.range m).map f).getD j d = f j := by
  rw [List.getD_eq_getElem?_getD, List.getElem?_map, List.getElem?_range h]
  rfl

theorem range'_snoc (s n : ℕ) : List.range' s (n + 1) = List.range' s n ++ [s + n] := by
  simpa using @List.range'_concat 1 s n

theorem bounceRunUpTo_succ (cfg : BounceConfig) (klines : List Kline) (m : ℕ) :
    bounceRunUpTo cfg klines (m + 1)
      = bounceStep cfg klines ((CalculateRSI klines 14).getD [])
          ((CalculateEMA klines 5).getD []) ((CalculateEMA klines 13).getD [])
          (cfg.DropLookback + m) (bounceRunUpTo cfg klines m) := by
  unfold bounceRunUpTo
  rw [range'_snoc, List.foldl_append]
  rfl

theorem backtestRunUpTo_succ (klines : List Kline) (sb fr : ℚ) (sc : StrategyConfig) (m : ℕ) :
    backtestRunUpTo klines sb fr sc (m + 1)
      = backtestStep fr sc klines ((CalculateRSI klines sc.RSI_PERIOD).getD [])
          ((CalculateEMA klines sc.EMA_FAST).getD []) ((CalculateEMA klines sc.EMA_SLOW).getD [])
          ((VolumeRatio klines sc.RSI_PERIOD).getD [])
          (50 + m) (backtestRunUpTo klines sb fr sc m) := by
  unfold backtestRunUpTo
  rw [range'_snoc, List.foldl_append]
  rfl

/-! ## C3: trade arithmetic, balance update and win/lose counters -/

/-- C3: for every liquidated tranche, in both engines, the recorded trade
has fee `(entry+exit)·amount·feeRate`, net PnL `gross - fee` with the gross
PnL `(exit-entry)·amount` for LONG and `(entry-exit)·amount` for SHORT; the
net PnL is added to the running balance; and the win counter increments
exactly when the net PnL is positive, the lose counter otherwise (zero
counts as a loss). -/
theorem trade_ledger_arithmetic :
    ∀ (side : TradeSide) (e : BounceEntry) (pe : PositionEntry) (exitTime : ℤ)
      (exitPrice amt feeRate bal : ℚ) (reason : BounceReason)
      (r : BounceResult) (r2 : BacktestResult) (t : BounceTrade) (t2 : Trade),
      (mkBounceTrade side e exitTime exitPrice amt feeRate reason).Fee
          = (e.entryPrice + exitPrice) * amt * feeRate
      ∧ (mkBounceTrade side e exitTime exitPrice amt feeRate reason).PnL
          = (if side = TradeSide.LONG then (exitPrice - e.entryPrice) * amt
             else (e.entryPrice - exitPrice) * amt)
            - (e.entryPrice + exitPrice) * amt * feeRate
      ∧ (applyBounceTrade r bal t).2 = bal + t.PnL
      ∧ (applyBounceTrade r bal t).1.Trades = r.Trades ++ [t]
      ∧ ((applyBounceTrade r bal t).1.WinTrades = r.WinTrades + 1 ↔ 0 < t.PnL)
      ∧ ((applyBounceTrade r bal t).1.LoseTrades = r.LoseTrades + 1 ↔ ¬0 < t.PnL)
      ∧ (mkTrade side pe exitTime exitPrice feeRate).Fee
          = (pe.entryPrice + exitPrice) * pe.amount * feeRate
      ∧ (mkTrade side pe exitTime exitPrice feeRate).PnL
          = (if side = TradeSide.LONG then (exitPrice - pe.entryPrice) * pe.amount
             else (pe.entryPrice - exitPrice) * pe.amount)
            - (pe.entryPrice + exitPrice) * pe.amount * feeRate
      ∧ (applyTrade r2 bal t2).2 = bal + t2.PnL
      ∧ (applyTrade r2 bal t2).1.Trades = r2.Trades ++ [t2]
      ∧ ((applyTrade r2 bal t2).1.WinTrades = r2.WinTrades + 1 ↔ 0 < t2.PnL)
      ∧ ((applyTrade r2 bal t2).1.LoseTrades = r2.LoseTrades + 1 ↔ ¬0 < t2.PnL) := by
  intro side e pe exitTime exitPrice amt feeRate bal reason r r2 t t2
  refine ⟨?_, ?_, rfl, rfl, ?_, ?_, ?_, ?_, rfl, rfl, ?_, ?_⟩
  · cases side <;> rfl
  · cases side <;> simp [mkBounceTrade]
  · by_cases h : 0 < t.PnL <;> simp [applyBounceTrade, h]
  · by_cases h : 0 < t.PnL <;> simp [applyBounceTrade, h]
  · cases side <;> rfl
  · cases side <;> simp [mkTrade]
  · by_cases h : 0 < t2.PnL <;> simp [applyTrade, h]
  · by_cases h : 0 < t2.PnL <;> simp [applyTrade, h]

/-! ## C9: leverage noninterference -/

/-- C9: two configurations that agree on every field other than `Leverage`
produce identical `RunBacktest` results — the function reads only
`StartBalance` and `FeeRate` from its configuration. -/
theorem leverage_noninterference (klines : List Kline) (cA cB : BacktestConfig)
    (sc : StrategyConfig)
    (hsym : cA.Symbol = cB.Symbol) (hsb : cA.StartBalance = cB.StartBalance)
    (hfr : cA.FeeRate = cB.FeeRate) (hps : cA.PositionSize = cB.PositionSize) :
    RunBacktest klines cA sc = RunBacktest klines cB sc := by
  unfold RunBacktest
  rw [hsb, hfr]

/-- Witness for C9 at two concrete configurations differing only in
leverage (5 vs 20). -/
theorem leverage_noninterference_witness :
    w9cfgA.Leverage ≠ w9cfgB.Leverage
    ∧ RunBacktest c5Klines w9cfgA c5sc = RunBacktest c5Klines w9cfgB c5sc :=
  ⟨by decide, leverage_noninterference c5Klines w9cfgA w9cfgB c5sc rfl rfl rfl rfl⟩

/-! ## C7: insufficient data returns the empty result -/

/-- C7: when the bar sequence is below the warm-up guard (50 bars for
`RunBacktest`, `DropLookback + 20` bars for `RunBounceBacktest`), the engine
returns the untouched initial result: zero trades, zero PnL, and a balance
curve holding only the starting balance. -/
theorem insufficient_data_empty (klines : List Kline) (cfg : BacktestConfig)
    (sc : StrategyConfig) (bcfg : BounceConfig)
    (h1 : klines.length < 50) (h2 : klines.length < bcfg.DropLookback + 20) :
    RunBacktest klines cfg sc = (backtestInit cfg.StartBalance).result
    ∧ (RunBacktest klines cfg sc).TotalTrades = 0
    ∧ (RunBacktest klines cfg sc).TotalPnL = 0
    ∧ (RunBacktest klines cfg sc).Trades = []
    ∧ (RunBacktest klines cfg sc).BalanceCurve = [cfg.StartBalance]
    ∧ RunBounceBacktest klines bcfg = (bounceInit bcfg).result
    ∧ (RunBounceBacktest klines bcfg).TotalTrades = 0
    ∧ (RunBounceBacktest klines bcfg).TotalPnL = 0
    ∧ (RunBounceBacktest klines bcfg).Trades = []
    ∧ (RunBounceBacktest klines bcfg).BalanceCurve = [bcfg.StartBalance] := by
  have e1 : RunBacktest klines cfg sc = (backtestInit cfg.StartBalance).result := by
    unfold RunBacktest backtestRun
    simp [h1]
  have e2 : RunBounceBacktest klines bcfg = (bounceInit bcfg).result := by
    unfold RunBounceBacktest
    simp [h2]
  refine ⟨e1, ?_, ?_, ?_, ?_, e2, ?_, ?_, ?_, ?_⟩
  · rw [e1]; rfl
  · rw [e1]; rfl
  · rw [e1]; rfl
  · rw [e1]; rfl
  · rw [e2]; rfl
  · rw [e2]; rfl
  · rw [e2]; rfl
  · rw [e2]; rfl

/-- Witness for C7 on the empty bar list. -/
theorem insufficient_data_empty_witness :
    ([] : List Kline).length < 50
    ∧ RunBounceBacktest [] c1cfg = (bounceInit c1cfg).result
    ∧ RunBacktest [] w9cfgA c5sc = (backtestInit w9cfgA.StartBalance).result :=
  ⟨by decide,
   (insufficient_data_empty [] w9cfgA c5sc c1cfg (by decide) (by decide)).2.2.2.2.2.1,
   (insufficient_data_empty [] w9cfgA c5sc c1cfg (by decide) (by decide)).1⟩

/-! ## Preservation lemmas for the per-bar phases -/

theorem foldl_applyTrade_fields (trades : List Trade) :
    ∀ (r : BacktestResult) (bal : ℚ),
      (trades.foldl (fun rb t => applyTrade rb.1 rb.2 t) (r, bal)).1.MaxDrawdown = r.MaxDrawdown
      ∧ (trades.foldl (fun rb t => applyTrade rb.1 rb.2 t) (r, bal)).1.BalanceCurve = r.BalanceCurve
      ∧ (trades.foldl (fun rb t => applyTrade rb.1 rb.2 t) (r, bal)).1.Trades = r.Trades ++ trades := by
  induction trades with
  | nil => intro r bal; exact ⟨rfl, rfl, (List.append_nil _).symm⟩
  | cons t ts ih =>
    intro r bal
    have h := ih (applyTrade r bal t).1 (applyTrade r bal t).2
    refine ⟨h.1, h.2.1, ?_⟩
    rw [List.foldl_cons, h.2.2]
    simp [applyTrade]

theorem foldl_applyBounceTrade_fields (trades : List BounceTrade) :
    ∀ (r : BounceResult) (bal : ℚ),
      (trades.foldl (fun rb t => applyBounceTrade rb.1 rb.2 t) (r, bal)).1.MaxDrawdown = r.MaxDrawdown
      ∧ (trades.foldl (fun rb t => applyBounceTrade rb.1 rb.2 t) (r, bal)).1.BalanceCurve = r.BalanceCurve
      ∧ (trades.foldl (fun rb t => applyBounceTrade rb.1 rb.2 t) (r, bal)).1.Trades = r.Trades ++ trades := by
  induction trades with
  | nil => intro r bal; exact ⟨rfl, rfl, (List.append_nil _).symm⟩
  | cons t ts ih =>
    intro r bal
    have h := ih (applyBounceTrade r bal t).1 (applyBounceTrade r bal t).2
    refine ⟨h.1, h.2.1, ?_⟩
    rw [List.foldl_cons, h.2.2]
    simp [applyBounceTrade]

theorem backtestExitPhase_result_fields (k : Kline) (fr : ℚ) (cu cd : Bool) (s : BacktestState) :
    (backtestExitPhase k fr cu cd s).result.MaxDrawdown = s.result.MaxDrawdown
    ∧ (backtestExitPhase k fr cu cd s).result.BalanceCurve = s.result.BalanceCurve := by
  unfold backtestExitPhase
  cases s.position with
  | none => exact ⟨rfl, rfl⟩
  | some pos =>
    dsimp only
    repeat' split
    all_goals
      first
      | exact ⟨(foldl_applyTrade_fields _ _ _).1, (foldl_applyTrade_fields _ _ _).2.1⟩
      | exact ⟨rfl, rfl⟩

theorem backtestEntryPhase_result (k : Kline) (fr : ℚ) (sc : StrategyConfig)
    (cR pR : ℚ) (ut dt vOK : Bool) (s : BacktestState) :
    (backtestEntryPhase k fr sc cR pR ut dt vOK s).result = s.result := rfl

theorem bounceTPStep_result_fields (cfg : BounceConfig) (k : Kline) (pos : BouncePosition)
    (bal : ℚ) (res : BounceResult) (sc : Bool × BounceReason) :
    (bounceTPStep cfg k pos bal res sc).2.2.2.MaxDrawdown = res.MaxDrawdown
    ∧ (bounceTPStep cfg k pos bal res sc).2.2.2.BalanceCurve = res.BalanceCurve := by
  unfold bounceTPStep
  dsimp only
  repeat' split
  all_goals
    first
    | exact ⟨(foldl_applyBounceTrade_fields _ _ _).1, (foldl_applyBounceTrade_fields _ _ _).2.1⟩
    | exact ⟨rfl, rfl⟩

theorem bounceExitPhase_result_fields (cfg : BounceConfig) (k : Kline) (cR : ℚ)
    (s : BounceState) :
    (bounceExitPhase cfg k cR s).result.MaxDrawdown = s.result.MaxDrawdown
    ∧ (bounceExitPhase cfg k cR s).result.BalanceCurve = s.result.BalanceCurve := by
  unfold bounceExitPhase
  cases s.position with
  | none => exact ⟨rfl, rfl⟩
  | some pos =>
    dsimp only
    repeat' split
    all_goals
      first
      | exact ⟨by rw [(foldl_applyBounceTrade_fields _ _ _).1,
                      (bounceTPStep_result_fields _ _ _ _ _ _).1],
               by rw [(foldl_applyBounceTrade_fields _ _ _).2.1,
                      (bounceTPStep_result_fields _ _ _ _ _ _).2]⟩
      | exact ⟨(bounceTPStep_result_fields _ _ _ _ _ _).1,
               (bounceTPStep_result_fields _ _ _ _ _ _).2⟩

theorem bounceEntryPhase_result (cfg : BounceConfig) (k : Kline) (cR pR hP lP : ℚ)
    (hd ut : Bool) (s : BounceState) :
    (bounceEntryPhase cfg k cR pR hP lP hd ut s).result = s.result := rfl

theorem finalizeBacktest_fields (r : BacktestResult) :
    (finalizeBacktest r).MaxDrawdown = r.MaxDrawdown
    ∧ (finalizeBacktest r).BalanceCurve = r.BalanceCurve
    ∧ (finalizeBacktest r).Trades = r.Trades := by
  unfold finalizeBacktest
  dsimp only
  repeat' split
  all_goals exact ⟨rfl, rfl, rfl⟩

theorem finalizeBounce_fields (r : BounceResult) :
    (finalizeBounce r).MaxDrawdown = r.MaxDrawdown
    ∧ (finalizeBounce r).BalanceCurve = r.BalanceCurve
    ∧ (finalizeBounce r).Trades = r.Trades := by
  unfold finalizeBounce
  dsimp only
  repeat' split
  all_goals exact ⟨rfl, rfl, rfl⟩

theorem backtestExitPhase_dd (k : Kline) (fr : ℚ) (cu cd : Bool) (s : BacktestState) :
    (backtestExitPhase k fr cu cd s).result.MaxDrawdown = s.result.MaxDrawdown :=
  (backtestExitPhase_result_fields k fr cu cd s).1

theorem backtestExitPhase_curve (k : Kline) (fr : ℚ) (cu cd : Bool) (s : BacktestState) :
    (backtestExitPhase k fr cu cd s).result.BalanceCurve = s.result.BalanceCurve :=
  (backtestExitPhase_result_fields k fr cu cd s).2

theorem bounceExitPhase_dd (cfg : BounceConfig) (k : Kline) (cR : ℚ) (s : BounceState) :
    (bounceExitPhase cfg k cR s).result.MaxDrawdown = s.result.MaxDrawdown :=
  (bounceExitPhase_result_fields cfg k cR s).1

theorem finalizeBacktest_dd (r : BacktestResult) :
    (finalizeBacktest r).MaxDrawdown = r.MaxDrawdown :=
  (finalizeBacktest_fields r).1

theorem finalizeBacktest_curve (r : BacktestResult) :
    (finalizeBacktest r).BalanceCurve = r.BalanceCurve :=
  (finalizeBacktest_fields r).2.1

theorem finalizeBounce_dd (r : BounceResult) :
    (finalizeBounce r).MaxDrawdown = r.MaxDrawdown :=
  (finalizeBounce_fields r).1

theorem finalizeBounce_trades (r : BounceResult) :
    (finalizeBounce r).Trades = r.Trades :=
  (finalizeBounce_fields r).2.2

/-! ## C8: one balance-curve point per processed bar -/

theorem backtestStep_curve (fr : ℚ) (sc : StrategyConfig) (klines : List Kline)
    (rsi ef es vr : List ℚ) (i : ℕ) (s : BacktestState) :
    (backtestStep fr sc klines rsi ef es vr i s).result.BalanceCurve.length
        = s.result.BalanceCurve.length + 1
    ∧ (0 < s.result.BalanceCurve.length →
        (backtestStep fr sc klines rsi ef es vr i s).result.BalanceCurve.getD 0 0
          = s.result.BalanceCurve.getD 0 0) := by
  unfold backtestStep backtestBookkeeping
  dsimp only
  constructor
  · simp [backtestEntryPhase_result, backtestExitPhase_curve]
  · intro h
    simp only [backtestEntryPhase_result, backtestExitPhase_curve]
    exact List.getD_append _ _ _ _ h

theorem backtest_curve_invariant (klines : List Kline) (sb fr : ℚ) (sc : StrategyConfig) :
    ∀ m, (backtestRunUpTo klines sb fr sc m).result.BalanceCurve.length = m + 1
      ∧ (backtestRunUpTo klines sb fr sc m).result.BalanceCurve.getD 0 0 = sb := by
  intro m
  induction m with
  | zero => exact ⟨rfl, rfl⟩
  | succ m ih =>
    rw [backtestRunUpTo_succ]
    refine ⟨?_, ?_⟩
    · rw [(backtestStep_curve _ _ _ _ _ _ _ _ _).1, ih.1]
    · rw [(backtestStep_curve _ _ _ _ _ _ _ _ _).2 (by rw [ih.1]; exact Nat.succ_pos m), ih.2]

/-- C8: the balance curve of `RunBacktest` holds the initial balance plus
exactly one appended value per processed bar (the loop runs over bars
`50 … n-1`, so `n - 50` bars are processed when `n ≥ 50`, none otherwise). -/
theorem balance_curve_one_point_per_bar (klines : List Kline) (cfg : BacktestConfig)
    (sc : StrategyConfig) :
    (RunBacktest klines cfg sc).BalanceCurve.length
        = backtestProcessedBars klines.length + 1
    ∧ (RunBacktest klines cfg sc).BalanceCurve.getD 0 0 = cfg.StartBalance := by
  unfold RunBacktest backtestRun backtestProcessedBars
  dsimp only
  by_cases h50 : klines.length < 50
  · simp only [if_pos h50]
    exact ⟨rfl, rfl⟩
  · simp only [if_neg h50, finalizeBacktest_curve]
    exact ⟨(backtest_curve_invariant klines cfg.StartBalance cfg.FeeRate sc _).1,
           (backtest_curve_invariant klines cfg.StartBalance cfg.FeeRate sc _).2⟩

/-! ## C5: maximum drawdown is monotone and nonnegative, but can exceed 1 -/

theorem backtestStep_dd (fr : ℚ) (sc : StrategyConfig) (klines : List Kline)
    (rsi ef es vr : List ℚ) (i : ℕ) (s : BacktestState) :
    s.result.MaxDrawdown ≤ (backtestStep fr sc klines rsi ef es vr i s).result.MaxDrawdown := by
  unfold backtestStep backtestBookkeeping
  dsimp only
  simp only [backtestEntryPhase_result, backtestExitPhase_dd]
  exact le_max_left _ _

theorem bounceStep_dd (cfg : BounceConfig) (klines : List Kline) (rsi ema5 ema13 : List ℚ)
    (i : ℕ) (s : BounceState) :
    s.result.MaxDrawdown ≤ (bounceStep cfg klines rsi ema5 ema13 i s).result.MaxDrawdown := by
  unfold bounceStep bounceBookkeeping
  dsimp only
  simp only [bounceEntryPhase_result, bounceExitPhase_dd]
  exact le_max_left _ _

theorem backtest_dd_mono (klines : List Kline) (sb fr : ℚ) (sc : StrategyConfig) :
    Monotone (fun m => (backtestRunUpTo klines sb fr sc m).result.MaxDrawdown) := by
  apply monotone_nat_of_le_succ
  intro m
  rw [backtestRunUpTo_succ]
  exact backtestStep_dd _ _ _ _ _ _ _ _ _

theorem bounce_dd_mono (cfg : BounceConfig) (klines : List Kline) :
    Monotone (fun m => (bounceRunUpTo cfg klines m).result.MaxDrawdown) := by
  apply monotone_nat_of_le_succ
  intro m
  rw [bounceRunUpTo_succ]
  exact bounceStep_dd _ _ _ _ _ _ _

/-- C5 (amended): along any run of either engine the recorded maximum
drawdown is monotonically non-decreasing and nonnegative, both at every
intermediate bar and in the final result.  (The upper bound 1 claimed by the
spec does not hold; see the counterexample.) -/
theorem maxdrawdown_monotone_nonneg (klines : List Kline) (sb fr : ℚ)
    (sc : StrategyConfig) (bcfg : BounceConfig) (m m' : ℕ) (h : m ≤ m') :
    0 ≤ (backtestRunUpTo klines sb fr sc m).result.MaxDrawdown
    ∧ (backtestRunUpTo klines sb fr sc m).result.MaxDrawdown
        ≤ (backtestRunUpTo klines sb fr sc m').result.MaxDrawdown
    ∧ 0 ≤ (bounceRunUpTo bcfg klines m).result.MaxDrawdown
    ∧ (bounceRunUpTo bcfg klines m).result.MaxDrawdown
        ≤ (bounceRunUpTo bcfg klines m').result.MaxDrawdown
    ∧ 0 ≤ (backtestRun klines sb fr sc).MaxDrawdown
    ∧ 0 ≤ (RunBounceBacktest klines bcfg).MaxDrawdown := by
  have h1 := backtest_dd_mono klines sb fr sc
  have h2 := bounce_dd_mono bcfg klines
  have z1 : (backtestRunUpTo klines sb fr sc 0).result.MaxDrawdown = 0 := rfl
  have z2 : (bounceRunUpTo bcfg klines 0).result.MaxDrawdown = 0 := rfl
  have n1 : ∀ j, 0 ≤ (backtestRunUpTo klines sb fr sc j).result.MaxDrawdown := by
    intro j
    calc (0 : ℚ) = (backtestRunUpTo klines sb fr sc 0).result.MaxDrawdown := z1.symm
      _ ≤ _ := h1 (Nat.zero_le j)
  have n2 : ∀ j, 0 ≤ (bounceRunUpTo bcfg klines j).result.MaxDrawdown := by
    intro j
    calc (0 : ℚ) = (bounceRunUpTo bcfg klines 0).result.MaxDrawdown := z2.symm
      _ ≤ _ := h2 (Nat.zero_le j)
  refine ⟨n1 m, h1 h, n2 m, h2 h, ?_, ?_⟩
  · unfold backtestRun
    dsimp only
    by_cases h50 : klines.length < 50
    · simp only [if_pos h50]
      exact le_rfl
    · simp only [if_neg h50, finalizeBacktest_dd]
      exact n1 _
  · unfold RunBounceBacktest
    dsimp only
    by_cases hg : klines.length < bcfg.DropLookback + 20
    · simp only [if_pos hg]
      exact le_rfl
    · simp only [if_neg hg, finalizeBounce_dd]
      exact n2 _

/-- Witness for C5 (amended) at a concrete run. -/
theorem maxdrawdown_monotone_nonneg_witness :
    (0 : ℕ) ≤ 1
    ∧ 0 ≤ (backtestRunUpTo c5Klines 10000 0 c5sc 0).result.MaxDrawdown
    ∧ 0 ≤ (RunBounceBacktest c1Klines c1cfg).MaxDrawdown :=
  ⟨Nat.zero_le 1,
   (maxdrawdown_monotone_nonneg c5Klines 10000 0 c5sc c1cfg 0 1 (Nat.zero_le 1)).1,
   (maxdrawdown_monotone_nonneg c1Klines 10000 0 c5sc c1cfg 0 1 (Nat.zero_le 1)).2.2.2.2.2⟩

/-- Counterexample for C5 as stated: on `c5Klines`/`c5cfg`/`c5sc` the short
position opened at bar 50 is closed at the spike bar 51 with a loss far
larger than the balance, and the recorded maximum drawdown exceeds 1
(it equals 1981/95 ≈ 20.85). -/
theorem maxdrawdown_exceeds_one : 1 < (RunBacktest c5Klines c5cfg c5sc).MaxDrawdown := by
  decide

/-! ## C10: the bounce strategy only ever goes long -/

theorem partialCloseLoop_sides (side : TradeSide) (et : ℤ) (ep f : ℚ) (r : BounceReason)
    (ca : ℚ) (entries : List BounceEntry) :
    ∀ closed, ∀ t ∈ (partialCloseLoop side et ep f r ca entries closed).2, t.side = side := by
  induction entries with
  | nil =>
    intro closed t ht
    simp [partialCloseLoop] at ht
  | cons e rest ih =>
    intro closed t ht
    unfold partialCloseLoop at ht
    dsimp only at ht
    by_cases hc : (decide (closed < ca) && decide (0 < e.amount)) = true
    · rw [if_pos hc] at ht
      rcases List.mem_cons.mp ht with h | h
      · rw [h]; rfl
      · exact ih _ t h
    · rw [if_neg hc] at ht
      exact ih _ t ht

theorem fullCloseEntries_sides (side : TradeSide) (et : ℤ) (ep f : ℚ) (r : BounceReason)
    (entries : List BounceEntry) :
    ∀ t ∈ fullCloseEntries side et ep f r entries, t.side = side := by
  induction entries with
  | nil =>
    intro t ht
    simp [fullCloseEntries] at ht
  | cons e rest ih =>
    intro t ht
    unfold fullCloseEntries at ht
    by_cases hc : e.amount ≤ 0
    · rw [if_pos hc] at ht
      exact ih t ht
    · rw [if_neg hc] at ht
      rcases List.mem_cons.mp ht with h | h
      · rw [h]; rfl
      · exact ih t h

theorem bounceTPStep_side (cfg : BounceConfig) (k : Kline) (pos : BouncePosition)
    (bal : ℚ) (res : BounceResult) (sc : Bool × BounceReason) :
    (bounceTPStep cfg k pos bal res sc).1.side = pos.side := by
  unfold bounceTPStep
  dsimp only
  repeat' split
  all_goals rfl

theorem bounceTPStep_trades_sides (cfg : BounceConfig) (k : Kline) (pos : BouncePosition)
    (bal : ℚ) (res : BounceResult) (sc : Bool × BounceReason)
    (hres : ∀ t ∈ res.Trades, t.side = pos.side) :
    ∀ t ∈ (bounceTPStep cfg k pos bal res sc).2.2.2.Trades, t.side = pos.side := by
  unfold bounceTPStep
  dsimp only
  repeat' split
  all_goals
    first
    | (intro t ht
       rw [(foldl_applyBounceTrade_fields _ _ _).2.2] at ht
       rcases List.mem_append.mp ht with h | h
       · exact hres t h
       · exact partialCloseLoop_sides _ _ _ _ _ _ _ _ t h)
    | exact hres

theorem bounceExitPhase_long (cfg : BounceConfig) (k : Kline) (cR : ℚ) (s : BounceState)
    (hpos : ∀ p, s.position = some p → p.side = TradeSide.LONG)
    (hres : ∀ t ∈ s.result.Trades, t.side = TradeSide.LONG) :
    (∀ p, (bounceExitPhase cfg k cR s).position = some p → p.side = TradeSide.LONG)
    ∧ (∀ t ∈ (bounceExitPhase cfg k cR s).result.Trades, t.side = TradeSide.LONG) := by
  unfold bounceExitPhase
  cases hsp : s.position with
  | none => exact ⟨hpos, hres⟩
  | some pos =>
    have hside : pos.side = TradeSide.LONG := hpos pos hsp
    have hres' : ∀ t ∈ s.result.Trades, t.side = pos.side := by
      intro t ht; rw [hside]; exact hres t ht
    have htp := bounceTPStep_trades_sides cfg k pos s.balance s.result
      (bounceCloseDecision cfg cR (k.timestamp - pos.entryTime)) hres'
    dsimp only
    split
    · refine ⟨fun p hp => absurd hp (by simp), fun t ht => ?_⟩
      rw [(foldl_applyBounceTrade_fields _ _ _).2.2] at ht
      rcases List.mem_append.mp ht with h | h
      · rw [htp t h, hside]
      · have h2 := fullCloseEntries_sides _ _ _ _ _ _ t h
        rw [h2, bounceTPStep_side, hside]
    · refine ⟨fun p hp => ?_, fun t ht => by rw [htp t ht, hside]⟩
      have hp' : some (bounceTPStep cfg k pos s.balance s.result
          (bounceCloseDecision cfg cR (k.timestamp - pos.entryTime))).1 = some p := hp
      rw [← Option.some.injEq .. |>.mp hp', bounceTPStep_side, hside]

theorem bounceEntryCore_long (cfg : BounceConfig) (k : Kline) (cR pR hP lP : ℚ)
    (hd ut : Bool) (pb : Option BouncePosition × ℚ)
    (hpb : ∀ p, pb.1 = some p → p.side = TradeSide.LONG) :
    ∀ p, (bounceEntryCore cfg k cR pR hP lP hd ut pb).1 = some p → p.side = TradeSide.LONG := by
  unfold bounceEntryCore
  cases hp1 : pb.1 with
  | none =>
    dsimp only
    split
    · intro p hp
      rw [← Option.some.injEq .. |>.mp hp]
      rfl
    · exact hpb
  | some pos =>
    dsimp only
    repeat' split
    all_goals
      first
      | (intro p hp
         rw [← Option.some.injEq .. |>.mp hp]
         exact hpb pos hp1)
      | exact hpb

theorem bounceStep_long (cfg : BounceConfig) (klines : List Kline) (rsi e5 e13 : List ℚ)
    (i : ℕ) (s : BounceState)
    (hpos : ∀ p, s.position = some p → p.side = TradeSide.LONG)
    (hres : ∀ t ∈ s.result.Trades, t.side = TradeSide.LONG) :
    (∀ p, (bounceStep cfg klines rsi e5 e13 i s).position = some p → p.side = TradeSide.LONG)
    ∧ (∀ t ∈ (bounceStep cfg klines rsi e5 e13 i s).result.Trades, t.side = TradeSide.LONG) := by
  unfold bounceStep bounceBookkeeping bounceEntryPhase
  dsimp only
  constructor
  · exact bounceEntryCore_long _ _ _ _ _ _ _ _ _ (bounceExitPhase_long _ _ _ _ hpos hres).1
  · exact (bounceExitPhase_long _ _ _ _ hpos hres).2

/-- C10: every position ever created by `RunBounceBacktest` has side LONG
(an invariant of every reachable loop state), and consequently every
recorded trade has side LONG. -/
theorem bounce_long_only (cfg : BounceConfig) (klines : List Kline) (m : ℕ) :
    (∀ p, (bounceRunUpTo cfg klines m).position = some p → p.side = TradeSide.LONG)
    ∧ (∀ t ∈ (bounceRunUpTo cfg klines m).result.Trades, t.side = TradeSide.LONG)
    ∧ ∀ t ∈ (RunBounceBacktest klines cfg).Trades, t.side = TradeSide.LONG := by
  have main : ∀ j, (∀ p, (bounceRunUpTo cfg klines j).position = some p → p.side = TradeSide.LONG)
      ∧ ∀ t ∈ (bounceRunUpTo cfg klines j).result.Trades, t.side = TradeSide.LONG := by
    intro j
    induction j with
    | zero =>
      refine ⟨?_, ?_⟩
      · intro p hp
        simp [bounceRunUpTo, bounceInit] at hp
      · intro t ht
        simp [bounceRunUpTo, bounceInit] at ht
    | succ j ih =>
      rw [bounceRunUpTo_succ]
      exact bounceStep_long _ _ _ _ _ _ _ ih.1 ih.2
  refine ⟨(main m).1, (main m).2, ?_⟩
  unfold RunBounceBacktest
  dsimp only
  by_cases hg : klines.length < cfg.DropLookback + 20
  · simp only [if_pos hg]
    intro t ht
    simp [bounceInit] at ht
  · simp only [if_neg hg, finalizeBounce_trades]
    exact (main _).2

/-- Witness for C10: the trade recorded by the concrete `c4cfg` run is a
real member of the trade list and is LONG. -/
theorem bounce_long_only_witness :
    ((RunBounceBacktest c1Klines c4cfg).Trades.getD 0
      ⟨0, 0, .SHORT, 0, 0, 0, 0, 0, .blank⟩).side = TradeSide.LONG :=
  (bounce_long_only c4cfg c1Klines 0).2.2 _ (by decide)

/-! ## C6: the simplified box-average RSI -/

theorem rsiAt_eq_spec (klines : List Kline) (period i : ℕ) (hp : 0 < period)
    (h1 : period ≤ i) (h2 : i < klines.length) :
    rsiAt (rsiChanges klines) period i = rsiSpecAt klines period i := by
  have hwin : ∀ j, j < period →
      (rsiChanges klines).getD (i - period + j) 0 = specDelta klines (i - period + j) := by
    intro j hj
    have hidx : i - period + j < klines.length - 1 := by omega
    unfold rsiChanges
    rw [getD_range_map _ _ _ _ hidx]
    rfl
  unfold rsiAt rsiSpecAt specAvgGain specAvgLoss
  dsimp only
  rw [List.map_map, List.map_map]
  have hg : (List.range period).map
        ((fun c => if 0 < c then c else 0) ∘ fun j => (rsiChanges klines).getD (i - period + j) 0)
      = (List.range period).map (fun j =>
          if 0 < specDelta klines (i - period + j) then specDelta klines (i - period + j) else 0) := by
    apply List.map_congr_left
    intro j hj
    simp only [Function.comp]
    rw [hwin j (List.mem_range.mp hj)]
  have hl : (List.range period).map
        ((fun c => if 0 < c then 0 else |c|) ∘ fun j => (rsiChanges klines).getD (i - period + j) 0)
      = (List.range period).map (fun j =>
          if 0 < specDelta klines (i - period + j) then 0 else |specDelta klines (i - period + j)|) := by
    apply List.map_congr_left
    intro j hj
    simp only [Function.comp]
    rw [hwin j (List.mem_range.mp hj)]
  rw [hg, hl]

/-- C6: `CalculateRSI` returns `none` on fewer than `period+1` bars;
otherwise an array of the input length whose entries at indices `i ≥ period`
are 100 when the trailing average of negative deltas is zero and
`100 - 100/(1 + avgGain/avgLoss)` otherwise, with the averages the simple
(box) means over the trailing `period` deltas; on a strictly rising close
series every index past warm-up is 100. -/
theorem rsi_box_average (klines : List Kline) (period : ℕ) (hp : 0 < period) :
    (klines.length < period + 1 → CalculateRSI klines period = none)
    ∧ (period + 1 ≤ klines.length →
        ((CalculateRSI klines period).getD []).length = klines.length
        ∧ (∀ i, period ≤ i → i < klines.length →
            ((CalculateRSI klines period).getD []).getD i 0 = rsiSpecAt klines period i)
        ∧ ((∀ j, j + 1 < klines.length →
              (klines.getD j default).close < (klines.getD (j + 1) default).close) →
            ∀ i, period ≤ i → i < klines.length →
              ((CalculateRSI klines period).getD []).getD i 0 = 100)) := by
  constructor
  · intro h
    unfold CalculateRSI
    rw [if_pos h]
  · intro h
    have hnot : ¬klines.length < period + 1 := not_lt.mpr h
    have hc : (CalculateRSI klines period).getD []
        = (List.range klines.length).map fun i =>
            if i < period then 0 else rsiAt (rsiChanges klines) period i := by
      unfold CalculateRSI
      rw [if_neg hnot]
      rfl
    rw [hc]
    refine ⟨by simp, ?_, ?_⟩
    · intro i h1 h2
      rw [getD_range_map _ _ _ _ h2, if_neg (not_lt.mpr h1)]
      exact rsiAt_eq_spec klines period i hp h1 h2
    · intro hrise i h1 h2
      rw [getD_range_map _ _ _ _ h2, if_neg (not_lt.mpr h1),
        rsiAt_eq_spec klines period i hp h1 h2]
      unfold rsiSpecAt
      have hz : specAvgLoss klines period i = 0 := by
        unfold specAvgLoss
        have hmap : (List.range period).map (fun j =>
              let d := specDelta klines (i - period + j)
              if 0 < d then 0 else |d|)
            = (List.range period).map (fun _ => (0 : ℚ)) := by
          apply List.map_congr_left
          intro j hj
          have hj' : j < period := List.mem_range.mp hj
          have hlt : i - period + j + 1 < klines.length := by omega
          have hd : 0 < specDelta klines (i - period + j) := by
            have := hrise (i - period + j) hlt
            unfold specDelta
            linarith
          simp only [hd, if_pos]
        rw [hmap]
        simp
      rw [if_pos hz]

/-- Witness for C6 on a concrete 16-bar strictly rising series with
period 14: the last RSI value is 100. -/
theorem rsi_box_average_witness :
    14 + 1 ≤ w6Klines.length
    ∧ ((CalculateRSI w6Klines 14).getD []).getD 15 0 = 100 := by
  refine ⟨by decide, ?_⟩
  refine ((rsi_box_average w6Klines 14 (by decide)).2 (by decide)).2.2 ?_ 15 (by decide) (by decide)
  intro j hj
  have hj' : j < 15 := by
    have hlen : w6Klines.length = 16 := by decide
    omega
  interval_cases j <;> decide

/-! ## C1: totalAmt tracks the tranche sum; avgPrice only up to the first
partial liquidation -/

theorem entriesAmtSum_snoc (l : List BounceEntry) (e : BounceEntry) :
    entriesAmtSum (l ++ [e]) = entriesAmtSum l + e.amount := by
  simp [entriesAmtSum]

theorem entriesNotionalSum_snoc (l : List BounceEntry) (e : BounceEntry) :
    entriesNotionalSum (l ++ [e]) = entriesNotionalSum l + e.entryPrice * e.amount := by
  simp [entriesNotionalSum]

theorem bounceTPStep_totalAmt (cfg : BounceConfig) (k : Kline) (pos : BouncePosition)
    (bal : ℚ) (res : BounceResult) (sc : Bool × BounceReason)
    (h : pos.totalAmt = entriesAmtSum pos.entries) :
    (bounceTPStep cfg k pos bal res sc).1.totalAmt
      = entriesAmtSum (bounceTPStep cfg k pos bal res sc).1.entries := by
  unfold bounceTPStep
  dsimp only
  repeat' split
  all_goals first | rfl | exact h

theorem bounceExitPhase_totalAmt (cfg : BounceConfig) (k : Kline) (cR : ℚ) (s : BounceState)
    (hpos : ∀ p, s.position = some p → p.totalAmt = entriesAmtSum p.entries) :
    ∀ p, (bounceExitPhase cfg k cR s).position = some p → p.totalAmt = entriesAmtSum p.entries := by
  unfold bounceExitPhase
  cases hsp : s.position with
  | none => exact hpos
  | some pos =>
    dsimp only
    split
    · intro p hp
      exact absurd hp (by simp)
    · intro p hp
      rw [← Option.some.injEq .. |>.mp hp]
      exact bounceTPStep_totalAmt cfg k pos s.balance s.result _ (hpos pos hsp)

theorem bounceEntryCore_totalAmt (cfg : BounceConfig) (k : Kline) (cR pR hP lP : ℚ)
    (hd ut : Bool) (pb : Option BouncePosition × ℚ)
    (hpb : ∀ p, pb.1 = some p → p.totalAmt = entriesAmtSum p.entries) :
    ∀ p, (bounceEntryCore cfg k cR pR hP lP hd ut pb).1 = some p
      → p.totalAmt = entriesAmtSum p.entries := by
  unfold bounceEntryCore
  cases hp1 : pb.1 with
  | none =>
    dsimp only
    split
    · intro p hp
      rw [← Option.some.injEq .. |>.mp hp]
      simp [bounceOpenPosition, entriesAmtSum]
    · exact hpb
  | some pos =>
    dsimp only
    repeat' split
    all_goals
      first
      | (intro p hp
         rw [← Option.some.injEq .. |>.mp hp]
         show pos.totalAmt + _ = entriesAmtSum (pos.entries ++ [_])
         rw [entriesAmtSum_snoc, hpb pos hp1])
      | exact hpb

theorem bounceStep_totalAmt (cfg : BounceConfig) (klines : List Kline) (rsi e5 e13 : List ℚ)
    (i : ℕ) (s : BounceState)
    (hpos : ∀ p, s.position = some p → p.totalAmt = entriesAmtSum p.entries) :
    ∀ p, (bounceStep cfg klines rsi e5 e13 i s).position = some p
      → p.totalAmt = entriesAmtSum p.entries := by
  unfold bounceStep bounceBookkeeping bounceEntryPhase
  dsimp only
  exact bounceEntryCore_totalAmt _ _ _ _ _ _ _ _ _
    (bounceExitPhase_totalAmt _ _ _ _ hpos)

/-- C1 (amended): after every mutation the position's `totalAmt` equals the
sum of the live tranche amounts (an invariant of every reachable loop
state); `avgPrice · totalAmt = Σ entryPrice·amount` is established when the
first tranche is created and preserved by every scale-in whose new total is
nonzero — but a partial liquidation leaves `avgPrice` unchanged, so
`avgPrice` need not equal the amount-weighted mean afterwards (see the
counterexample). -/
theorem position_totalamt_avgprice (cfg : BounceConfig) (klines : List Kline)
    (m : ℕ) (pos : BouncePosition) (ts : ℤ) (price amount : ℚ)
    (hne : pos.totalAmt + amount ≠ 0)
    (havg : pos.avgPrice * pos.totalAmt = entriesNotionalSum pos.entries) :
    (∀ p, (bounceRunUpTo cfg klines m).position = some p
        → p.totalAmt = entriesAmtSum p.entries)
    ∧ (bounceScaleIn pos ts price amount).avgPrice * (bounceScaleIn pos ts price amount).totalAmt
        = entriesNotionalSum (bounceScaleIn pos ts price amount).entries
    ∧ ∀ (ts2 : ℤ) (price2 lo hi tgt amt2 : ℚ),
        (bounceOpenPosition ts2 price2 lo hi tgt amt2).avgPrice
            * (bounceOpenPosition ts2 price2 lo hi tgt amt2).totalAmt
          = entriesNotionalSum (bounceOpenPosition ts2 price2 lo hi tgt amt2).entries := by
  refine ⟨?_, ?_, ?_⟩
  · induction m with
    | zero =>
      intro p hp
      simp [bounceRunUpTo, bounceInit] at hp
    | succ m ih =>
      rw [bounceRunUpTo_succ]
      exact bounceStep_totalAmt _ _ _ _ _ _ _ ih
  · unfold bounceScaleIn
    dsimp only
    rw [entriesNotionalSum_snoc]
    have h1 : pos.totalAmt + amount - amount = pos.totalAmt := by ring
    rw [h1, div_mul_cancel₀ _ hne, havg]
  · intro ts2 price2 lo hi tgt amt2
    simp [bounceOpenPosition, entriesNotionalSum]

/-- Witness for C1 (amended) at a concrete two-tranche position. -/
theorem position_totalamt_avgprice_witness :
    wPos.totalAmt + 1 ≠ 0
    ∧ wPos.avgPrice * wPos.totalAmt = entriesNotionalSum wPos.entries
    ∧ (bounceScaleIn wPos 0 100 1).avgPrice * (bounceScaleIn wPos 0 100 1).totalAmt
        = entriesNotionalSum (bounceScaleIn wPos 0 100 1).entries :=
  ⟨by decide, by decide,
   (position_totalamt_avgprice c1cfg c1Klines 0 wPos 0 100 1 (by decide) (by decide)).2.1⟩

/-- Counterexample for C1 as stated: after the partial liquidation at bar 6
of the `c1cfg` run the open position has a nonzero total amount but its
`avgPrice` (400/3, unchanged by the liquidation) differs from the
amount-weighted mean entry price of the remaining tranches (1300/9). -/
theorem avgprice_stale_after_partial_exit :
    ((bounceRunUpTo c1cfg c1Klines 6).position.all fun p =>
      decide (entriesAmtSum p.entries = 0)
      || decide (p.avgPrice = entriesNotionalSum p.entries / entriesAmtSum p.entries)) = false := by
  decide

/-! ## C2: the scheduled partial take-profit -/

theorem entriesAmtSum_cons (e : BounceEntry) (l : List BounceEntry) :
    entriesAmtSum (e :: l) = e.amount + entriesAmtSum l := by
  simp [entriesAmtSum]

theorem entriesAmtSum_nonneg (l : List BounceEntry) (h : ∀ e ∈ l, 0 < e.amount) :
    0 ≤ entriesAmtSum l := by
  unfold entriesAmtSum
  apply List.sum_nonneg
  intro x hx
  rcases List.mem_map.mp hx with ⟨e, he, rfl⟩
  exact le_of_lt (h e he)

theorem partialCloseLoop_stall (side : TradeSide) (et : ℤ) (ep f : ℚ) (r : BounceReason)
    (ca : ℚ) (entries : List BounceEntry) :
    ∀ closed, ¬closed < ca → partialCloseLoop side et ep f r ca entries closed = (entries, []) := by
  induction entries with
  | nil => intro closed _; rfl
  | cons e rest ih =>
    intro closed h
    unfold partialCloseLoop
    dsimp only
    have hc : ¬(decide (closed < ca) && decide (0 < e.amount)) = true := by simp [h]
    rw [if_neg hc, ih closed h]

theorem fifoDrop_nonpos (amt : ℚ) (l : List BounceEntry) (h : amt ≤ 0) : fifoDrop amt l = l := by
  cases l with
  | nil => rfl
  | cons e rest =>
    unfold fifoDrop
    rw [if_pos h]

theorem partialCloseLoop_fst (side : TradeSide) (et : ℤ) (ep f : ℚ) (r : BounceReason)
    (ca : ℚ) (entries : List BounceEntry) (hpos : ∀ e ∈ entries, 0 < e.amount) :
    ∀ closed, (partialCloseLoop side et ep f r ca entries closed).1
      = fifoDrop (ca - closed) entries := by
  induction entries with
  | nil => intro closed; rfl
  | cons e rest ih =>
    intro closed
    have hrest : ∀ x ∈ rest, 0 < x.amount := fun x hx => hpos x (List.mem_cons_of_mem _ hx)
    have he : 0 < e.amount := hpos e (List.mem_cons_self e rest)
    unfold partialCloseLoop
    dsimp only
    by_cases hlt : closed < ca
    · have hc : (decide (closed < ca) && decide (0 < e.amount)) = true := by simp [hlt, he]
      rw [if_pos hc]
      dsimp only
      by_cases hsplit : ca < closed + e.amount
      · rw [if_pos (by simpa using hsplit), if_pos (by simpa using hsplit)]
        have harg : closed + (ca - closed) = ca := by ring
        rw [harg, partialCloseLoop_stall side et ep f r ca rest ca (lt_irrefl ca)]
        have hd1 : ¬ca - closed ≤ 0 := by
          intro hle
          exact absurd (by linarith : ca ≤ closed) (not_le.mpr hlt)
        have hd2 : ¬e.amount ≤ ca - closed := by
          intro hle
          exact absurd hsplit (not_lt.mpr (by linarith))
        unfold fifoDrop
        rw [if_neg hd1, if_neg hd2]
        rfl
      · rw [if_neg (by simpa using hsplit), if_neg (by simpa using hsplit)]
        rw [List.nil_append, ih hrest (closed + e.amount)]
        have hd1 : ¬ca - closed ≤ 0 := by
          intro hle
          exact absurd (by linarith : ca ≤ closed) (not_le.mpr hlt)
        have hd2 : e.amount ≤ ca - closed := by
          have := not_lt.mp hsplit
          linarith
        unfold fifoDrop
        rw [if_neg hd1, if_pos hd2]
        have harg : ca - closed - e.amount = ca - (closed + e.amount) := by ring
        rw [harg]
        cases rest <;> rfl
    · have hc : ¬(decide (closed < ca) && decide (0 < e.amount)) = true := by simp [hlt]
      rw [if_neg hc]
      dsimp only
      rw [partialCloseLoop_stall side et ep f r ca rest closed hlt]
      have hd : ca - closed ≤ 0 := by
        have := not_lt.mp hlt
        linarith
      rw [fifoDrop_nonpos _ _ hd]

theorem fifoDrop_sum (l : List BounceEntry) :
    ∀ amt, 0 ≤ amt → amt ≤ entriesAmtSum l
      → entriesAmtSum (fifoDrop amt l) = entriesAmtSum l - amt := by
  induction l with
  | nil =>
    intro amt h0 h1
    have hz : amt = 0 := le_antisymm (by simpa [entriesAmtSum] using h1) h0
    rw [hz]
    simp [fifoDrop]
  | cons e rest ih =>
    intro amt h0 h1
    unfold fifoDrop
    by_cases hz : amt ≤ 0
    · have h00 : amt = 0 := le_antisymm hz h0
      rw [if_pos hz, h00]
      ring
    · rw [if_neg hz]
      rw [entriesAmtSum_cons] at h1
      by_cases hle : e.amount ≤ amt
      · rw [if_pos hle]
        rw [ih (amt - e.amount) (by linarith) (by linarith)]
        rw [entriesAmtSum_cons]
        ring
      · rw [if_neg hle]
        rw [entriesAmtSum_cons, entriesAmtSum_cons]
        dsimp only
        ring

theorem bounceTPStep_nofire (cfg : BounceConfig) (k : Kline) (pos' : BouncePosition)
    (bal' : ℚ) (res' : BounceResult) (sc' : Bool × BounceReason)
    (hnot : ¬(cfg.StartExitTime ≤ k.timestamp - pos'.entryTime
        ∧ cfg.ProfitThreshold ≤ (k.close - pos'.lowPrice) / (pos'.highPrice - pos'.lowPrice)
        ∧ (pos'.exitCount : ℤ)
            < (k.timestamp - pos'.entryTime - cfg.StartExitTime).tdiv cfg.ExitInterval + 1)) :
    bounceTPStep cfg k pos' bal' res' sc' = (pos', sc', bal', res') := by
  unfold bounceTPStep
  dsimp only
  by_cases hA : (decide (cfg.StartExitTime ≤ k.timestamp - pos'.entryTime)
      && decide (cfg.ProfitThreshold ≤ (k.close - pos'.lowPrice) / (pos'.highPrice - pos'.lowPrice))) = true
  · rw [if_pos hA]
    have hAB : cfg.StartExitTime ≤ k.timestamp - pos'.entryTime
        ∧ cfg.ProfitThreshold ≤ (k.close - pos'.lowPrice) / (pos'.highPrice - pos'.lowPrice) := by
      simpa using hA
    have hC : ¬(pos'.exitCount : ℤ)
        < (k.timestamp - pos'.entryTime - cfg.StartExitTime).tdiv cfg.ExitInterval + 1 :=
      fun hc => hnot ⟨hAB.1, hAB.2, hc⟩
    rw [if_neg (by simpa using hC)]
  · rw [if_neg hA]

theorem bounceTPStep_fst_ind (cfg : BounceConfig) (k : Kline) (pos : BouncePosition)
    (bal bal' : ℚ) (res res' : BounceResult) (sc sc' : Bool × BounceReason) :
    (bounceTPStep cfg k pos bal res sc).1 = (bounceTPStep cfg k pos bal' res' sc').1 := by
  unfold bounceTPStep
  dsimp only
  by_cases h1 : (decide (cfg.StartExitTime ≤ k.timestamp - pos.entryTime)
      && decide (cfg.ProfitThreshold ≤ (k.close - pos.lowPrice) / (pos.highPrice - pos.lowPrice))) = true
  · rw [if_pos h1, if_pos h1]
    by_cases h2 : decide ((pos.exitCount : ℤ)
        < (k.timestamp - pos.entryTime - cfg.StartExitTime).tdiv cfg.ExitInterval + 1) = true
    · rw [if_pos h2, if_pos h2]
    · rw [if_neg h2, if_neg h2]
  · rw [if_neg h1, if_neg h1]

/-- C2 (amended): whenever the scheduled take-profit block fires — elapsed
time since entry at least `StartExitTime`, bounce fraction at least
`ProfitThreshold`, and the executed slot count strictly below
`⌊elapsed-past-start / ExitInterval⌋ + 1` (floor plus one, not rounded up) —
it liquidates, once per bar, the fraction `ExitPercent` of the current total
amount from the oldest tranches first, splitting the tranche in which the
boundary falls (the kept entries are exactly the spec's FIFO remainder);
the executed count rises by exactly one; and when the residual total falls
below 1e-4 the close flag is set and, the remaining tranche list being
nonempty, the exit phase destroys the position (Flat). -/
theorem bounce_partial_takeprofit (cfg : BounceConfig) (k : Kline) (pos : BouncePosition)
    (bal maxB cR : ℚ) (res : BounceResult) (sc : Bool × BounceReason)
    (hamt : ∀ e ∈ pos.entries, 0 < e.amount)
    (htot : pos.totalAmt = entriesAmtSum pos.entries)
    (hep0 : 0 ≤ cfg.ExitPercent) (hep1 : cfg.ExitPercent ≤ 1)
    (hstart : cfg.StartExitTime ≤ k.timestamp - pos.entryTime)
    (hbounce : cfg.ProfitThreshold ≤ (k.close - pos.lowPrice) / (pos.highPrice - pos.lowPrice))
    (hdue : (pos.exitCount : ℤ)
        < (k.timestamp - pos.entryTime - cfg.StartExitTime).tdiv cfg.ExitInterval + 1) :
    (bounceTPStep cfg k pos bal res sc).1.entries
        = fifoDrop (pos.totalAmt * cfg.ExitPercent) pos.entries
    ∧ (bounceTPStep cfg k pos bal res sc).1.totalAmt = (1 - cfg.ExitPercent) * pos.totalAmt
    ∧ (bounceTPStep cfg k pos bal res sc).1.exitCount = pos.exitCount + 1
    ∧ ((bounceTPStep cfg k pos bal res sc).1.totalAmt < 1 / 10000
        → (bounceTPStep cfg k pos bal res sc).2.1 = (true, BounceReason.tpDone))
    ∧ ((bounceTPStep cfg k pos bal res sc).1.totalAmt < 1 / 10000
        → (bounceTPStep cfg k pos bal res sc).1.entries ≠ []
        → (bounceExitPhase cfg k cR ⟨bal, some pos, maxB, res⟩).position = none)
    ∧ (∀ (pos' : BouncePosition) (bal' : ℚ) (res' : BounceResult) (sc' : Bool × BounceReason),
        ¬(cfg.StartExitTime ≤ k.timestamp - pos'.entryTime
            ∧ cfg.ProfitThreshold ≤ (k.close - pos'.lowPrice) / (pos'.highPrice - pos'.lowPrice)
            ∧ (pos'.exitCount : ℤ)
                < (k.timestamp - pos'.entryTime - cfg.StartExitTime).tdiv cfg.ExitInterval + 1)
        → bounceTPStep cfg k pos' bal' res' sc' = (pos', sc', bal', res')) := by
  have hfire1 : (decide (cfg.StartExitTime ≤ k.timestamp - pos.entryTime)
      && decide (cfg.ProfitThreshold ≤ (k.close - pos.lowPrice) / (pos.highPrice - pos.lowPrice))) = true := by
    simp [hstart, hbounce]
  have hfire2 : decide ((pos.exitCount : ℤ)
      < (k.timestamp - pos.entryTime - cfg.StartExitTime).tdiv cfg.ExitInterval + 1) = true := by
    simpa using hdue
  have hfst : (bounceTPStep cfg k pos bal res sc).1
      = { pos with
          entries := (partialCloseLoop pos.side k.timestamp k.close cfg.FeeRate
            (BounceReason.tpPartial (pos.exitCount + 1)
              ((k.close - pos.lowPrice) / (pos.highPrice - pos.lowPrice)))
            (pos.totalAmt * cfg.ExitPercent) pos.entries 0).1
          totalAmt := entriesAmtSum ((partialCloseLoop pos.side k.timestamp k.close cfg.FeeRate
            (BounceReason.tpPartial (pos.exitCount + 1)
              ((k.close - pos.lowPrice) / (pos.highPrice - pos.lowPrice)))
            (pos.totalAmt * cfg.ExitPercent) pos.entries 0).1)
          exitCount := pos.exitCount + 1 } := by
    unfold bounceTPStep
    dsimp only
    rw [if_pos hfire1, if_pos hfire2]
  have hdrop : (partialCloseLoop pos.side k.timestamp k.close cfg.FeeRate
      (BounceReason.tpPartial (pos.exitCount + 1)
        ((k.close - pos.lowPrice) / (pos.highPrice - pos.lowPrice)))
      (pos.totalAmt * cfg.ExitPercent) pos.entries 0).1
      = fifoDrop (pos.totalAmt * cfg.ExitPercent) pos.entries := by
    rw [partialCloseLoop_fst _ _ _ _ _ _ _ hamt 0, sub_zero]
  have hS0 : 0 ≤ entriesAmtSum pos.entries := entriesAmtSum_nonneg pos.entries hamt
  have hca0 : 0 ≤ pos.totalAmt * cfg.ExitPercent := by
    rw [htot]
    exact mul_nonneg hS0 hep0
  have hcaS : pos.totalAmt * cfg.ExitPercent ≤ entriesAmtSum pos.entries := by
    rw [htot]
    calc entriesAmtSum pos.entries * cfg.ExitPercent
        ≤ entriesAmtSum pos.entries * 1 := mul_le_mul_of_nonneg_left hep1 hS0
      _ = entriesAmtSum pos.entries := mul_one _
  have htotal : (bounceTPStep cfg k pos bal res sc).1.totalAmt
      = (1 - cfg.ExitPercent) * pos.totalAmt := by
    rw [hfst]
    dsimp only
    rw [hdrop, fifoDrop_sum pos.entries _ hca0 hcaS, ← htot]
    ring
  refine ⟨by rw [hfst]; dsimp only; exact hdrop, htotal, by rw [hfst], ?_, ?_, ?_⟩
  · intro h
    rw [hfst] at h
    dsimp only at h
    unfold bounceTPStep
    dsimp only
    rw [if_pos hfire1, if_pos hfire2]
    dsimp only
    rw [if_pos h]
  · intro h hne
    unfold bounceExitPhase
    dsimp only
    have hind : (bounceTPStep cfg k pos bal res
        (bounceCloseDecision cfg cR (k.timestamp - pos.entryTime))).1
        = (bounceTPStep cfg k pos bal res sc).1 :=
      bounceTPStep_fst_ind cfg k pos bal bal res res _ sc
    have hsc2 : (bounceTPStep cfg k pos bal res
        (bounceCloseDecision cfg cR (k.timestamp - pos.entryTime))).2.1
        = (true, BounceReason.tpDone) := by
      rw [hfst] at h
      dsimp only at h
      unfold bounceTPStep
      dsimp only
      rw [if_pos hfire1, if_pos hfire2]
      dsimp only
      rw [if_pos h]
    have hemp : ((bounceTPStep cfg k pos bal res
        (bounceCloseDecision cfg cR (k.timestamp - pos.entryTime))).1.entries.isEmpty) = false := by
      rw [hind]
      rw [List.isEmpty_eq_false_iff_exists_mem]
      rcases List.exists_mem_of_ne_nil _ hne with ⟨x, hx⟩
      exact ⟨x, hx⟩
    rw [hsc2, hemp]
    rfl
  · intro pos' bal' res' sc' hnot
    exact bounceTPStep_nofire cfg k pos' bal' res' sc' hnot

/-- Witness for C2 (amended) at a concrete two-tranche position whose
boundary falls inside the first tranche. -/
theorem bounce_partial_takeprofit_witness :
    (∀ e ∈ wPos.entries, 0 < e.amount)
    ∧ (bounceTPStep c1cfg wKline wPos 10000 (bounceInit c1cfg).result (false, .blank)).1.entries
        = fifoDrop (wPos.totalAmt * c1cfg.ExitPercent) wPos.entries :=
  ⟨by decide,
   (bounce_partial_takeprofit c1cfg wKline wPos 10000 0 0 (bounceInit c1cfg).result
     (false, .blank) (by decide) (by decide) (by decide) (by decide) (by decide) (by decide)
     (by decide)).1⟩

/-- Counterexample for C2 as stated: at bar 6 of the `c1cfg` run the elapsed
time past `StartExitTime` is 0, so the claim's "rounded up" slot count is
`⌈0/ExitInterval⌉ = 0` and no slot would be due — yet the code executed one
partial liquidation (`exitCount = 1`, one recorded trade), because it
computes `floor + 1`. -/
theorem partial_exit_slot_count_not_ceiling :
    ((bounceRunUpTo c1cfg c1Klines 6).position.map (·.exitCount)) = some 1
    ∧ (bounceRunUpTo c1cfg c1Klines 6).result.TotalTrades = 1
    ∧ ceilDiv ((6 - 4) - c1cfg.StartExitTime) c1cfg.ExitInterval = 0 := by
  refine ⟨by decide, by decide, by decide⟩

/-! ## C4: full-close conditions and the closing-reason tag -/

/-- C4 (amended): in `RunBounceBacktest` the full-close conditions checked
while a position is open are the RSI stop, then the maximum holding time,
then completion of the scheduled take-profit — there is no EMA-cross exit.
The close fires when any of them holds, but the reason tag is taken from
the LAST true condition of the sequence (each check overwrites the tag), so
with both the RSI stop and max-hold true the tag is max-hold; when the
decision fires (and the scheduled take-profit block does not) the exit
phase closes every remaining tranche and destroys the position. -/
theorem bounce_close_priority (cfg : BounceConfig) (k : Kline) (currentRSI : ℚ)
    (holdTime : ℤ) (s : BounceState) (pos : BouncePosition)
    (hsp : s.position = some pos)
    (hno : ¬(cfg.StartExitTime ≤ k.timestamp - pos.entryTime
        ∧ cfg.ProfitThreshold ≤ (k.close - pos.lowPrice) / (pos.highPrice - pos.lowPrice)
        ∧ (pos.exitCount : ℤ)
            < (k.timestamp - pos.entryTime - cfg.StartExitTime).tdiv cfg.ExitInterval + 1))
    (hclose : (bounceCloseDecision cfg currentRSI (k.timestamp - pos.entryTime)).1 = true)
    (hne : pos.entries ≠ []) :
    ((bounceCloseDecision cfg currentRSI holdTime).1
        = (decide (currentRSI < cfg.RSIExit) || decide (cfg.MaxHoldTime ≤ holdTime)))
    ∧ ((bounceCloseDecision cfg currentRSI holdTime).2
        = if cfg.MaxHoldTime ≤ holdTime then BounceReason.maxHold
          else if currentRSI < cfg.RSIExit then BounceReason.rsiStop
          else BounceReason.blank)
    ∧ (bounceExitPhase cfg k currentRSI s).position = none
    ∧ (bounceExitPhase cfg k currentRSI s).result.Trades
        = s.result.Trades ++ fullCloseEntries pos.side k.timestamp k.close cfg.FeeRate
            (bounceCloseDecision cfg currentRSI (k.timestamp - pos.entryTime)).2 pos.entries := by
  have hdec1 : (bounceCloseDecision cfg currentRSI holdTime).1
      = (decide (currentRSI < cfg.RSIExit) || decide (cfg.MaxHoldTime ≤ holdTime)) := by
    by_cases h2 : cfg.MaxHoldTime ≤ holdTime <;> by_cases h1 : currentRSI < cfg.RSIExit <;>
      simp [bounceCloseDecision, h1, h2]
  have hdec2 : (bounceCloseDecision cfg currentRSI holdTime).2
      = if cfg.MaxHoldTime ≤ holdTime then BounceReason.maxHold
        else if currentRSI < cfg.RSIExit then BounceReason.rsiStop
        else BounceReason.blank := by
    by_cases h2 : cfg.MaxHoldTime ≤ holdTime <;> by_cases h1 : currentRSI < cfg.RSIExit <;>
      simp [bounceCloseDecision, h1, h2]
  have hemp : pos.entries.isEmpty = false := by
    cases he : pos.entries with
    | nil => exact absurd he hne
    | cons a l => rfl
  have hTP := bounceTPStep_nofire cfg k pos s.balance s.result
    (bounceCloseDecision cfg currentRSI (k.timestamp - pos.entryTime)) hno
  constructor
  · exact hdec1
  constructor
  · exact hdec2
  · unfold bounceExitPhase
    rw [hsp]
    dsimp only
    rw [hTP]
    dsimp only
    rw [hclose, hemp]
    rw [if_pos (show (true && !false) = true from rfl)]
    constructor
    · rfl
    · exact (foldl_applyBounceTrade_fields _ _ _).2.2

/-- Witness for C4 (amended): a concrete open position closed by the
decision (both stop conditions true) with the take-profit block inert. -/
theorem bounce_close_priority_witness :
    wPos.entries ≠ []
    ∧ (bounceExitPhase c4cfg wKline 0
        ⟨10000, some wPos, 10000, (bounceInit c4cfg).result⟩).position = none :=
  ⟨by decide,
   (bounce_close_priority c4cfg wKline 0 5
     ⟨10000, some wPos, 10000, (bounceInit c4cfg).result⟩ wPos rfl (by decide) (by decide)
     (by decide)).2.2.1⟩

/-- Counterexample for C4 as stated: at bar 5 of the `c4cfg` run both the
RSI stop (RSI 0 < RSIExit 1000) and the maximum holding time
(holdTime 1 ≥ MaxHoldTime 1) are true, yet the recorded trade carries the
max-hold reason — the LAST true condition won the tag, not the first. -/
theorem close_reason_last_condition_wins :
    ((bounceRunUpTo c4cfg c1Klines 5).result.Trades.map (·.Reason)) = [BounceReason.maxHold]
    ∧ ((CalculateRSI c1Klines 14).getD []).getD 5 0 < c4cfg.RSIExit
    ∧ c4cfg.MaxHoldTime ≤ (c1Klines.getD 5 default).timestamp - 4 := by
  refine ⟨by decide, by decide, by decide⟩

end RsiStrat
